import Mathlib

/-!
# Worker pool (atc/worker/pool.go) and user artifact step (atc/exec)

A shallow embedding of the worker pool: the `pool` methods `allSatisfying`,
`Satisfying`, `FindOrCreateContainer`, `FindContainerByHandle`, `CreateVolume`
and `LookupVolume`, written over explicit collaborators.  The user artifact
step and its stream source follow the pool, under their own heading.

Modelling conventions.

* A Go interface value of type `Worker`, `Container` or `Volume` is a reference.
  Workers are references that can be called; what a call answers is given by
  `WorkerImpl`, the method table of the worker objects.  The workers handed out
  by the Provider, by a compatibility check and by the strategy are taken to be
  such references, so a method call on a `nil` worker is not modelled.  A `nil`
  container or volume is `none`, and so is the `nil` worker that
  `pool.Satisfying` returns next to an error.
* A Go `error` is `Option GoError`, `none` being `nil`.
* A Go result tuple is a Lean tuple with the same components in the same order.
  A `nil` slice is the empty list.
* The answers of the collaborators (Provider, workers, strategy) are fixed for
  the duration of one pool call.  Every pool method returns, next to its Go
  result, the list of collaborator calls it made, in program order.  Logging
  is not modelled.
* `rand.Intn` and slice indexing can panic; `Outcome` records that.
-/

namespace Concourse

/-! ## Data model -/

/-- Modelled from the spec: the declaration of `WorkerSpec` is not among the
sources.  The spec lists platform, tags, owning team and resource-type support;
`pool.go` reads only `TeamID` and builds the values `WorkerSpec{}` and
`WorkerSpec{TeamID: teamID}`. -/
structure WorkerSpec where
  Platform : String
  ResourceType : String
  Tags : List String
  TeamID : Int
deriving DecidableEq, Repr

/-- The value `WorkerSpec{}`: every field has its zero value. -/
def WorkerSpec.zero : WorkerSpec := ⟨"", "", [], 0⟩

/-- The value `WorkerSpec{TeamID: teamID}`. -/
def WorkerSpec.ofTeam (teamID : Int) : WorkerSpec := ⟨"", "", [], teamID⟩

/-- Values of Go type `error` that are not `nil`.  The first three are the
errors declared in `pool.go`; `collaborator` stands for any other error value,
named by its text: one a Provider, worker, strategy or destination returns, or
one made with `errors.New`. -/
inductive GoError where
  | ErrNoWorkers
  | ErrNoGlobalWorkers
  | NoCompatibleWorkersError (Spec : WorkerSpec)
  | collaborator (text : String)
deriving DecidableEq, Repr

/-- A reference to a worker object (a non-nil value of interface `Worker`). -/
structure Worker where
  ref : Nat
deriving DecidableEq, Repr

/-- A reference to a container object. -/
structure Container where
  ref : Nat
deriving DecidableEq, Repr

/-- A reference to a volume object. -/
structure Volume where
  ref : Nat
deriving DecidableEq, Repr

/-- Type `db.ContainerOwner`; the pool only passes it on. -/
structure ContainerOwner where
  key : Nat
deriving DecidableEq, Repr

/-- Type `db.ContainerMetadata`; the pool only passes it on. -/
structure ContainerMetadata where
  key : Nat
deriving DecidableEq, Repr

/-- Type `ContainerSpec`; the pool only passes it on. -/
structure ContainerSpec where
  key : Nat
deriving DecidableEq, Repr

/-- Type `creds.VersionedResourceTypes`; the pool only passes it on. -/
structure VersionedResourceTypes where
  key : Nat
deriving DecidableEq, Repr

/-- Type `ImageFetchingDelegate`; the pool only passes it on. -/
structure ImageFetchingDelegate where
  key : Nat
deriving DecidableEq, Repr

/-- Type `context.Context`; the pool only passes it on. -/
structure Context where
  key : Nat
deriving DecidableEq, Repr

/-- Type `db.VolumeType`; the pool only passes it on. -/
structure VolumeType where
  key : Nat
deriving DecidableEq, Repr

/-- Type `VolumeSpec` of `client.go`.  `Strategy` is a reference to a
baggageclaim strategy, `TTL` a duration in nanoseconds. -/
structure VolumeSpec where
  Strategy : Nat
  Properties : List (String × String)
  Privileged : Bool
  TTL : Int
deriving DecidableEq, Repr

/-! ## Collaborators -/

/-- The methods of interface `Worker` that the pool calls, as a method table
over worker references.  Each field answers the call of that name on the worker
given first. -/
structure WorkerImpl where
  Satisfying : Worker → WorkerSpec → Worker × Option GoError
  IsOwnedByTeam : Worker → Bool
  FindOrCreateContainer : Worker → Context → ImageFetchingDelegate → ContainerOwner →
    ContainerMetadata → ContainerSpec → WorkerSpec → VersionedResourceTypes →
    Option Container × Option GoError
  FindContainerByHandle : Worker → Int → String → Option Container × Bool × Option GoError
  CreateVolume : Worker → VolumeSpec → Int → VolumeType → Option Volume × Option GoError
  LookupVolume : Worker → String → Option Volume × Bool × Option GoError

/-- Interface `WorkerProvider`, restricted to the methods the pool calls
(`NewGardenWorker` is not called in `pool.go`). -/
structure WorkerProvider where
  RunningWorkers : List Worker × Option GoError
  FindWorkerForContainer : Int → String → Worker × Bool × Option GoError
  FindWorkerForContainerByOwner : Int → ContainerOwner → Worker × Bool × Option GoError

/-- Interface `ContainerPlacementStrategy`. -/
structure ContainerPlacementStrategy where
  Choose : List Worker → ContainerSpec → Worker × Option GoError

/-- The state of a `*rand.Rand`: `next` is the number the source is about to
yield. -/
structure Rand where
  next : Nat
deriving DecidableEq, Repr

/-- What a Go call that may panic does. -/
inductive Outcome (α : Type) where
  | returned (a : α)
  | panicked
deriving DecidableEq, Repr

/-- Method `Intn` of `math/rand`: for `n > 0` some number of `[0, n)`, a panic
for `n <= 0`.  The number is `next` reduced into the interval, so that every
number of `[0, n)` is the answer for some state of the source. -/
def Rand.Intn (r : Rand) (n : Nat) : Outcome Nat :=
  if n = 0 then Outcome.panicked else Outcome.returned (r.next % n)

/-- Struct `pool`. -/
structure pool where
  provider : WorkerProvider
  rand : Rand
  strategy : ContainerPlacementStrategy

/-- One call of a collaborator method, with its arguments. -/
inductive Call where
  | RunningWorkers
  | FindWorkerForContainer (teamID : Int) (handle : String)
  | FindWorkerForContainerByOwner (teamID : Int) (owner : ContainerOwner)
  | Choose (candidates : List Worker) (containerSpec : ContainerSpec)
  | Intn (n : Nat)
  | WorkerSatisfying (worker : Worker) (spec : WorkerSpec)
  | WorkerIsOwnedByTeam (worker : Worker)
  | WorkerFindOrCreateContainer (worker : Worker) (ctx : Context)
      (delegate : ImageFetchingDelegate) (owner : ContainerOwner)
      (metadata : ContainerMetadata) (containerSpec : ContainerSpec)
      (workerSpec : WorkerSpec) (resourceTypes : VersionedResourceTypes)
  | WorkerFindContainerByHandle (worker : Worker) (teamID : Int) (handle : String)
  | WorkerCreateVolume (worker : Worker) (spec : VolumeSpec) (teamID : Int)
      (volumeType : VolumeType)
  | WorkerLookupVolume (worker : Worker) (handle : String)
deriving DecidableEq, Repr

/-- A Go result together with the collaborator calls made to compute it. -/
structure Traced (α : Type) where
  result : α
  calls : List Call
deriving DecidableEq, Repr

/-! ## pool.allSatisfying -/

/-- The variables of the loop of `allSatisfying`. -/
structure Compatible where
  compatibleTeamWorkers : List Worker
  compatibleGeneralWorkers : List Worker
  calls : List Call
deriving DecidableEq, Repr

/-- One iteration of `for _, worker := range workers` in `allSatisfying`. -/
def allSatisfyingBody (impl : WorkerImpl) (spec : WorkerSpec) (acc : Compatible)
    (worker : Worker) : Compatible :=
  let satisfyingWorker := (impl.Satisfying worker spec).1
  let err := (impl.Satisfying worker spec).2
  match err with
  | none =>
    if impl.IsOwnedByTeam worker then
      ⟨acc.compatibleTeamWorkers ++ [satisfyingWorker], acc.compatibleGeneralWorkers,
        acc.calls ++ [Call.WorkerSatisfying worker spec, Call.WorkerIsOwnedByTeam worker]⟩
    else
      ⟨acc.compatibleTeamWorkers, acc.compatibleGeneralWorkers ++ [satisfyingWorker],
        acc.calls ++ [Call.WorkerSatisfying worker spec, Call.WorkerIsOwnedByTeam worker]⟩
  | some _ =>
    ⟨acc.compatibleTeamWorkers, acc.compatibleGeneralWorkers,
      acc.calls ++ [Call.WorkerSatisfying worker spec]⟩

/-- Method `allSatisfying` of `pool`. -/
def pool.allSatisfying (impl : WorkerImpl) (p : pool) (spec : WorkerSpec) :
    Traced (List Worker × Option GoError) :=
  let workers := p.provider.RunningWorkers.1
  let err := p.provider.RunningWorkers.2
  match err with
  | some e => ⟨([], some e), [Call.RunningWorkers]⟩
  | none =>
    if workers.length = 0 then
      ⟨([], some GoError.ErrNoWorkers), [Call.RunningWorkers]⟩
    else
      let acc := workers.foldl (allSatisfyingBody impl spec) ⟨[], [], [Call.RunningWorkers]⟩
      if acc.compatibleTeamWorkers.length ≠ 0 then
        ⟨(acc.compatibleTeamWorkers, none), acc.calls⟩
      else if acc.compatibleGeneralWorkers.length ≠ 0 then
        ⟨(acc.compatibleGeneralWorkers, none), acc.calls⟩
      else if spec.TeamID = 0 then
        ⟨([], some GoError.ErrNoGlobalWorkers), acc.calls⟩
      else
        ⟨([], some (GoError.NoCompatibleWorkersError spec)), acc.calls⟩

/-! ## pool.Satisfying -/

/-- Method `Satisfying` of `pool`.  The index expression
`compatibleWorkers[pool.rand.Intn(len(compatibleWorkers))]` panics when `Intn`
does or when the index is out of range. -/
def pool.Satisfying (impl : WorkerImpl) (p : pool) (spec : WorkerSpec) :
    Traced (Outcome (Option Worker × Option GoError)) :=
  let compatibleWorkers := (p.allSatisfying impl spec).result.1
  let err := (p.allSatisfying impl spec).result.2
  let calls := (p.allSatisfying impl spec).calls
  match err with
  | some e => ⟨Outcome.returned (none, some e), calls⟩
  | none =>
    match p.rand.Intn compatibleWorkers.length with
    | Outcome.panicked => ⟨Outcome.panicked, calls ++ [Call.Intn compatibleWorkers.length]⟩
    | Outcome.returned i =>
      match compatibleWorkers.get? i with
      | none => ⟨Outcome.panicked, calls ++ [Call.Intn compatibleWorkers.length]⟩
      | some randomWorker =>
        ⟨Outcome.returned (some randomWorker, none),
          calls ++ [Call.Intn compatibleWorkers.length]⟩

/-! ## pool.FindOrCreateContainer -/

/-- Method `FindOrCreateContainer` of `pool`. -/
def pool.FindOrCreateContainer (impl : WorkerImpl) (p : pool) (ctx : Context)
    (delegate : ImageFetchingDelegate) (owner : ContainerOwner)
    (metadata : ContainerMetadata) (containerSpec : ContainerSpec)
    (workerSpec : WorkerSpec) (resourceTypes : VersionedResourceTypes) :
    Traced (Option Container × Option GoError) :=
  let worker := (p.provider.FindWorkerForContainerByOwner workerSpec.TeamID owner).1
  let found := (p.provider.FindWorkerForContainerByOwner workerSpec.TeamID owner).2.1
  let err := (p.provider.FindWorkerForContainerByOwner workerSpec.TeamID owner).2.2
  let calls := [Call.FindWorkerForContainerByOwner workerSpec.TeamID owner]
  match err with
  | some e => ⟨(none, some e), calls⟩
  | none =>
    if !found then
      let compatibleWorkers := (p.allSatisfying impl workerSpec).result.1
      let err := (p.allSatisfying impl workerSpec).result.2
      let calls := calls ++ (p.allSatisfying impl workerSpec).calls
      match err with
      | some e => ⟨(none, some e), calls⟩
      | none =>
        let worker := (p.strategy.Choose compatibleWorkers containerSpec).1
        let err := (p.strategy.Choose compatibleWorkers containerSpec).2
        let calls := calls ++ [Call.Choose compatibleWorkers containerSpec]
        match err with
        | some e => ⟨(none, some e), calls⟩
        | none =>
          ⟨impl.FindOrCreateContainer worker ctx delegate owner metadata containerSpec
              workerSpec resourceTypes,
            calls ++ [Call.WorkerFindOrCreateContainer worker ctx delegate owner metadata
              containerSpec workerSpec resourceTypes]⟩
    else
      ⟨impl.FindOrCreateContainer worker ctx delegate owner metadata containerSpec
          workerSpec resourceTypes,
        calls ++ [Call.WorkerFindOrCreateContainer worker ctx delegate owner metadata
          containerSpec workerSpec resourceTypes]⟩

/-! ## pool.FindContainerByHandle -/

/-- Method `FindContainerByHandle` of `pool`. -/
def pool.FindContainerByHandle (impl : WorkerImpl) (p : pool) (teamID : Int)
    (handle : String) : Traced (Option Container × Bool × Option GoError) :=
  let worker := (p.provider.FindWorkerForContainer teamID handle).1
  let found := (p.provider.FindWorkerForContainer teamID handle).2.1
  let err := (p.provider.FindWorkerForContainer teamID handle).2.2
  let calls := [Call.FindWorkerForContainer teamID handle]
  match err with
  | some e => ⟨(none, false, some e), calls⟩
  | none =>
    if !found then
      ⟨(none, false, none), calls⟩
    else
      ⟨impl.FindContainerByHandle worker teamID handle,
        calls ++ [Call.WorkerFindContainerByHandle worker teamID handle]⟩

/-! ## pool.CreateVolume -/

/-- Method `CreateVolume` of `pool`.  A panic of `pool.Satisfying` ends the
call; calling `CreateVolume` on a `nil` worker would panic too. -/
def pool.CreateVolume (impl : WorkerImpl) (p : pool) (spec : VolumeSpec) (teamID : Int)
    (volumeType : VolumeType) : Traced (Outcome (Option Volume × Option GoError)) :=
  let calls := (p.Satisfying impl (WorkerSpec.ofTeam teamID)).calls
  match (p.Satisfying impl (WorkerSpec.ofTeam teamID)).result with
  | Outcome.panicked => ⟨Outcome.panicked, calls⟩
  | Outcome.returned (_, some e) => ⟨Outcome.returned (none, some e), calls⟩
  | Outcome.returned (none, none) => ⟨Outcome.panicked, calls⟩
  | Outcome.returned (some worker, none) =>
    ⟨Outcome.returned (impl.CreateVolume worker spec teamID volumeType),
      calls ++ [Call.WorkerCreateVolume worker spec teamID volumeType]⟩

/-! ## pool.LookupVolume -/

/-- The loop `for _, worker := range workers` of `LookupVolume`, followed by
the final `return nil, false, nil`. -/
def lookupVolumeLoop (impl : WorkerImpl) (handle : String) :
    List Worker → Traced (Option Volume × Bool × Option GoError)
  | [] => ⟨(none, false, none), []⟩
  | worker :: rest =>
    let volume := (impl.LookupVolume worker handle).1
    let found := (impl.LookupVolume worker handle).2.1
    let err := (impl.LookupVolume worker handle).2.2
    if found then
      ⟨(volume, found, err), [Call.WorkerLookupVolume worker handle]⟩
    else
      ⟨(lookupVolumeLoop impl handle rest).result,
        Call.WorkerLookupVolume worker handle :: (lookupVolumeLoop impl handle rest).calls⟩

/-- Method `LookupVolume` of `pool`. -/
def pool.LookupVolume (impl : WorkerImpl) (p : pool) (handle : String) :
    Traced (Option Volume × Bool × Option GoError) :=
  let workers := (p.allSatisfying impl WorkerSpec.zero).result.1
  let err := (p.allSatisfying impl WorkerSpec.zero).result.2
  let calls := (p.allSatisfying impl WorkerSpec.zero).calls
  match err with
  | some e => ⟨(none, false, some e), calls⟩
  | none =>
    ⟨(lookupVolumeLoop impl handle workers).result,
      calls ++ (lookupVolumeLoop impl handle workers).calls⟩

/-! ## Vocabulary of the specification -/

/-- The compatibility check of `worker` against `spec` succeeds: its
`Satisfying` returns a `nil` error. -/
def compatible (impl : WorkerImpl) (spec : WorkerSpec) (worker : Worker) : Bool :=
  (impl.Satisfying worker spec).2.isNone

/-- The narrowed worker that the compatibility check of `worker` returns. -/
def narrowed (impl : WorkerImpl) (spec : WorkerSpec) (worker : Worker) : Worker :=
  (impl.Satisfying worker spec).1

/-- The check results of the team-owned compatible workers, in fleet order. -/
def teamTier (impl : WorkerImpl) (spec : WorkerSpec) (fleet : List Worker) : List Worker :=
  (fleet.filter (fun w => compatible impl spec w && impl.IsOwnedByTeam w)).map
    (narrowed impl spec)

/-- The check results of the shared compatible workers, in fleet order. -/
def sharedTier (impl : WorkerImpl) (spec : WorkerSpec) (fleet : List Worker) : List Worker :=
  (fleet.filter (fun w => compatible impl spec w && !impl.IsOwnedByTeam w)).map
    (narrowed impl spec)

/-- The ownership-tiered compatible set: the team tier if it has a member,
otherwise the shared tier. -/
def preferredTier (impl : WorkerImpl) (spec : WorkerSpec) (fleet : List Worker) :
    List Worker :=
  if teamTier impl spec fleet ≠ [] then teamTier impl spec fleet
  else sharedTier impl spec fleet

/-- The calls the loop of `allSatisfying` makes on a fleet. -/
def scanCalls (impl : WorkerImpl) (spec : WorkerSpec) (fleet : List Worker) : List Call :=
  fleet.flatMap (fun w =>
    if compatible impl spec w then [Call.WorkerSatisfying w spec, Call.WorkerIsOwnedByTeam w]
    else [Call.WorkerSatisfying w spec])

/-- The collaborator methods. -/
inductive Method where
  | RunningWorkers
  | FindWorkerForContainer
  | FindWorkerForContainerByOwner
  | Choose
  | Intn
  | WorkerSatisfying
  | WorkerIsOwnedByTeam
  | WorkerFindOrCreateContainer
  | WorkerFindContainerByHandle
  | WorkerCreateVolume
  | WorkerLookupVolume
deriving DecidableEq, Repr

/-- The method a call is a call of. -/
def Call.method : Call → Method
  | Call.RunningWorkers => Method.RunningWorkers
  | Call.FindWorkerForContainer _ _ => Method.FindWorkerForContainer
  | Call.FindWorkerForContainerByOwner _ _ => Method.FindWorkerForContainerByOwner
  | Call.Choose _ _ => Method.Choose
  | Call.Intn _ => Method.Intn
  | Call.WorkerSatisfying _ _ => Method.WorkerSatisfying
  | Call.WorkerIsOwnedByTeam _ => Method.WorkerIsOwnedByTeam
  | Call.WorkerFindOrCreateContainer _ _ _ _ _ _ _ _ => Method.WorkerFindOrCreateContainer
  | Call.WorkerFindContainerByHandle _ _ _ => Method.WorkerFindContainerByHandle
  | Call.WorkerCreateVolume _ _ _ _ => Method.WorkerCreateVolume
  | Call.WorkerLookupVolume _ _ => Method.WorkerLookupVolume

/-- The calls of method `m` in a trace, in order. -/
def callsOf (m : Method) (calls : List Call) : List Call :=
  calls.filter (fun c => decide (c.method = m))

/-- The team-owned compatible workers of the fleet, in fleet order. -/
def teamWorkers (impl : WorkerImpl) (spec : WorkerSpec) (fleet : List Worker) : List Worker :=
  fleet.filter (fun w => compatible impl spec w && impl.IsOwnedByTeam w)

/-- The shared compatible workers of the fleet, in fleet order. -/
def sharedWorkers (impl : WorkerImpl) (spec : WorkerSpec) (fleet : List Worker) :
    List Worker :=
  fleet.filter (fun w => compatible impl spec w && !impl.IsOwnedByTeam w)

/-- The fleet workers of the preferred tier: the team-owned compatible workers
if there is at least one, otherwise the shared compatible workers. -/
def preferredWorkers (impl : WorkerImpl) (spec : WorkerSpec) (fleet : List Worker) :
    List Worker :=
  if teamWorkers impl spec fleet ≠ [] then teamWorkers impl spec fleet
  else sharedWorkers impl spec fleet

/-- What the compatibility check of one fleet worker contributes, in the words
of the reference definition: nothing when the check returns an error, and
otherwise the narrowed worker the check returned, labelled with the
`IsOwnedByTeam` flag of the fleet worker that was checked. -/
def keptWorker (impl : WorkerImpl) (spec : WorkerSpec) (worker : Worker) :
    Option (Bool × Worker) :=
  match (impl.Satisfying worker spec).2 with
  | none => some (impl.IsOwnedByTeam worker, (impl.Satisfying worker spec).1)
  | some _ => none

/-- The reference definition of the list `allSatisfying` returns: over the
fleet in Provider order keep the check results, split them by the label, and
take the team-owned sublist if it is not empty, else the shared sublist. -/
def allSatisfyingReference (impl : WorkerImpl) (spec : WorkerSpec) (fleet : List Worker) :
    List Worker :=
  let kept := fleet.filterMap (keptWorker impl spec)
  let teamOwned := (kept.filter (fun k => k.1)).map (fun k => k.2)
  let shared := (kept.filter (fun k => !k.1)).map (fun k => k.2)
  if teamOwned ≠ [] then teamOwned else shared

/-! ## Concrete workers, fleets and pools -/

/-- A method table for seven workers.  Workers 1, 3 and 5 are team-owned, the
others shared.  Worker 4 fails every compatibility check; the check of worker 5
returns worker 6; every other check returns its receiver.  Worker 2 holds
volume 20 and worker 3 volume 30 under every handle; worker 7 fails every
volume lookup; the others report no volume.  Every worker creates container and
volume number `ref`. -/
def sampleImpl : WorkerImpl where
  Satisfying := fun w _ =>
    if w.ref = 4 then (w, some (GoError.collaborator "incompatible"))
    else if w.ref = 5 then (⟨6⟩, none)
    else (w, none)
  IsOwnedByTeam := fun w => w.ref = 1 || w.ref = 3 || w.ref = 5
  FindOrCreateContainer := fun w _ _ _ _ _ _ _ => (some ⟨w.ref⟩, none)
  FindContainerByHandle := fun w _ _ => (some ⟨w.ref⟩, true, none)
  CreateVolume := fun w _ _ _ => (some ⟨w.ref⟩, none)
  LookupVolume := fun w _ =>
    if w.ref = 2 then (some ⟨20⟩, true, none)
    else if w.ref = 3 then (some ⟨30⟩, true, none)
    else if w.ref = 7 then (none, false, some (GoError.collaborator "unreachable"))
    else (none, false, none)

/-- The method table `sampleImpl`, except that the check of the team-owned
worker 5 returns the shared worker 2, which holds volume 20. -/
def relayImpl : WorkerImpl where
  Satisfying := fun w _ =>
    if w.ref = 4 then (w, some (GoError.collaborator "incompatible"))
    else if w.ref = 5 then (⟨2⟩, none)
    else (w, none)
  IsOwnedByTeam := sampleImpl.IsOwnedByTeam
  FindOrCreateContainer := sampleImpl.FindOrCreateContainer
  FindContainerByHandle := sampleImpl.FindContainerByHandle
  CreateVolume := sampleImpl.CreateVolume
  LookupVolume := sampleImpl.LookupVolume

/-- A provider that reports `fleet` without error and knows no container. -/
def sampleProvider (fleet : List Worker) : WorkerProvider where
  RunningWorkers := (fleet, none)
  FindWorkerForContainer := fun _ _ => (⟨0⟩, false, none)
  FindWorkerForContainerByOwner := fun _ _ => (⟨0⟩, false, none)

/-- A strategy that chooses the last candidate. -/
def sampleStrategy : ContainerPlacementStrategy where
  Choose := fun candidates _ => (candidates.getLastD ⟨0⟩, none)

/-- A pool over `fleet` whose random source is about to yield `next`. -/
def samplePool (fleet : List Worker) (next : Nat) : pool where
  provider := sampleProvider fleet
  rand := ⟨next⟩
  strategy := sampleStrategy

/-- A pool whose collaborators answer as scripted: `RunningWorkers` returns
`fleet`, both owner lookups return `lookup`, and `Choose` returns the last
candidate together with the error `choice`. -/
def scriptedPool (fleet : List Worker × Option GoError) (lookup : Worker × Bool × Option GoError)
    (choice : Option GoError) (next : Nat) : pool where
  provider := ⟨fleet, fun _ _ => lookup, fun _ _ => lookup⟩
  rand := ⟨next⟩
  strategy := ⟨fun candidates _ => (candidates.getLastD ⟨0⟩, choice)⟩

/-- A request of team 5 for platform linux. -/
def sampleSpec : WorkerSpec := ⟨"linux", "", [], 5⟩

/-! # User artifact step (atc/exec/user_artifact_step.go)

The step registers a source that streams from user input.  The run state of the
build is a mutable object that the step and the source both point to: the
embedding passes its current value to `Run` and `StreamTo`, and `Run` returns
the new value.  A byte stream is the list of the bytes read from it.  Every
function returns the calls it made on its collaborators, in program order;
logging is not modelled. -/

/-- A reference to a `BuildStepDelegate`. -/
structure BuildStepDelegate where
  ref : Nat
deriving DecidableEq, Repr

/-- Type `atc.UserArtifactPlan`. -/
structure UserArtifactPlan where
  Name : String
  ArtifactID : Int
deriving DecidableEq, Repr

/-- Struct `UserArtifactStep`; `id` is an `atc.PlanID`, a string. -/
structure UserArtifactStep where
  id : String
  name : String
  artifactID : Int
  delegate : BuildStepDelegate
deriving DecidableEq, Repr

/-- Function `UserArtifact`. -/
def UserArtifact (id : String) (plan : UserArtifactPlan) (delegate : BuildStepDelegate) :
    UserArtifactStep :=
  ⟨id, plan.Name, plan.ArtifactID, delegate⟩

/-- A reference to the run state of a build (a value of interface
`RunState`). -/
structure RunStateRef where
  ref : Nat
deriving DecidableEq, Repr

/-- Struct `streamSource`, without its logger. -/
structure streamSource where
  step : UserArtifactStep
  state : RunStateRef
deriving DecidableEq, Repr

/-- Values of interface `worker.ArtifactSource`: a `streamSource`, or a source
of another kind. -/
inductive ArtifactSource where
  | userInput (source : streamSource)
  | other (ref : Nat)
deriving DecidableEq, Repr

/-- Modelled from the spec: `worker.ArtifactRepository` is not among the
sources.  The spec describes the registry of a build as a mapping from artifact
name to artifact source, with the contract "register a named source; look up a
source by name (found/not-found)", whose entries are never removed. -/
structure ArtifactRepository where
  sources : String → Option ArtifactSource

/-- Modelled from the spec: `RegisterSource(name, source)` of the registry,
which maps `name` to `source` from then on. -/
def ArtifactRepository.RegisterSource (repo : ArtifactRepository) (name : String)
    (source : ArtifactSource) : ArtifactRepository :=
  ⟨fun n => if n = name then some source else repo.sources n⟩

/-- Modelled from the spec: `SourceFor(name)` of the registry, which returns
the source registered under `name` and whether there is one. -/
def ArtifactRepository.SourceFor (repo : ArtifactRepository) (name : String) :
    Option ArtifactSource × Bool :=
  match repo.sources name with
  | some source => (some source, true)
  | none => (none, false)

/-- Modelled from the spec: the object behind interface `RunState`, which is
not among the sources: the artifact registry of the build, and for each plan id
the byte stream the producer supplies for it, if any. -/
structure RunState where
  ref : RunStateRef
  artifacts : ArtifactRepository
  userInput : String → Option (List UInt8)

/-- Interface `worker.ArtifactDestination`: what `StreamIn` answers for a path
and the bytes of the stream. -/
structure ArtifactDestination where
  StreamIn : String → List UInt8 → Option GoError

/-- One call made by the step or its source on a collaborator. -/
inductive ExecCall where
  | RegisterSource (name : String)
  | ReadUserInput (id : String)
  | Stdout (delegate : BuildStepDelegate)
  | progress (label : String)
  | Start
  | Finish
  | NewProxyReader
  | StreamIn (path : String) (stream : List UInt8)
deriving DecidableEq, Repr

/-- A Go result together with the calls made to compute it. -/
structure ExecTraced (α : Type) where
  result : α
  calls : List ExecCall
deriving DecidableEq, Repr

/-- What a Go call that may wait for another goroutine does. -/
inductive Blocking (α : Type) where
  | done (a : α)
  | blocked
deriving DecidableEq, Repr

/-- An `ExecCall` is a call of `StreamIn`. -/
def ExecCall.isStreamIn : ExecCall → Bool
  | ExecCall.StreamIn _ _ => true
  | _ => false

/-- An `ExecCall` is a call of `ReadUserInput`. -/
def ExecCall.isReadUserInput : ExecCall → Bool
  | ExecCall.ReadUserInput _ => true
  | _ => false

/-- Modelled from the spec: `ReadUserInput(id, handler)` of the run state,
which is not among the sources.  It waits until the producer has supplied a
stream for `id`, hands that stream to `handler` and returns what `handler`
returns; it stays blocked when nothing is supplied. -/
def RunState.ReadUserInput (state : RunState) (id : String)
    (handler : List UInt8 → ExecTraced (Option GoError)) :
    ExecTraced (Blocking (Option GoError)) :=
  match state.userInput id with
  | some rc => ⟨Blocking.done (handler rc).result, ExecCall.ReadUserInput id :: (handler rc).calls⟩
  | none => ⟨Blocking.blocked, [ExecCall.ReadUserInput id]⟩

/-- Modelled from the spec: `NewProxyReader` of the progress bar that
`progress` returns, neither among the sources.  The spec has the stream
wrapped "in the progress observer so transferred bytes are visible to
observers": the bytes read through the proxy are those of the stream. -/
def NewProxyReader (rc : List UInt8) : List UInt8 := rc

/-- Method `Run` of `UserArtifactStep`: the error returned, the run state after
the call, and the calls made. -/
def UserArtifactStep.Run (step : UserArtifactStep) (_ctx : Context) (state : RunState) :
    Option GoError × RunState × List ExecCall :=
  (none,
    ⟨state.ref,
      state.artifacts.RegisterSource step.name (ArtifactSource.userInput ⟨step, state.ref⟩),
      state.userInput⟩,
    [ExecCall.RegisterSource step.name])

/-- Method `Succeeded` of `UserArtifactStep`. -/
def UserArtifactStep.Succeeded (_step : UserArtifactStep) : Bool := true

/-- Method `StreamTo` of `streamSource`; `state` is the current value of the
run state that `source.state` points to. -/
def streamSource.StreamTo (source : streamSource) (state : RunState)
    (dest : ArtifactDestination) : ExecTraced (Blocking (Option GoError)) :=
  let read := state.ReadUserInput source.step.id (fun rc =>
    ⟨dest.StreamIn "." (NewProxyReader rc),
      [ExecCall.Start, ExecCall.NewProxyReader, ExecCall.StreamIn "." (NewProxyReader rc),
        ExecCall.Finish]⟩)
  ⟨read.result,
    [ExecCall.Stdout source.step.delegate, ExecCall.progress (source.step.name ++ ":")] ++
      read.calls⟩

/-- Method `StreamFile` of `streamSource`. -/
def streamSource.StreamFile (_source : streamSource) (_path : String) :
    ExecTraced (Option (List UInt8) × Option GoError) :=
  ⟨(none, some (GoError.collaborator "cannot stream single file from user artifact")), []⟩

/-- Method `VolumeOn` of `streamSource`. -/
def streamSource.VolumeOn (_source : streamSource) (_worker : Worker) :
    Option Volume × Bool × Option GoError :=
  (none, false, none)

/-- The step of the test: plan id `some-plan-id`, name `some-name`, artifact
123. -/
def sampleStep : UserArtifactStep :=
  UserArtifact "some-plan-id" ⟨"some-name", 123⟩ ⟨0⟩

/-- A run state with an empty registry in which only `some-plan-id` is supplied
a stream, the bytes of `hello`. -/
def sampleRunState : RunState :=
  ⟨⟨1⟩, ⟨fun _ => none⟩,
    fun id => if id = "some-plan-id" then some [104, 101, 108, 108, 111] else none⟩

/-- A run state with an empty registry to which no stream is ever supplied. -/
def idleRunState : RunState := ⟨⟨2⟩, ⟨fun _ => none⟩, fun _ => none⟩

/-- A destination that accepts every stream. -/
def sampleDestination : ArtifactDestination := ⟨fun _ _ => none⟩

/-- A destination that fails on every stream. -/
def failingDestination : ArtifactDestination :=
  ⟨fun _ _ => some (GoError.collaborator "disk full")⟩

/-! ## Facts about the loop of allSatisfying -/

theorem teamTier_cons (impl : WorkerImpl) (spec : WorkerSpec) (w : Worker)
    (fleet : List Worker) :
    teamTier impl spec (w :: fleet) =
      (if compatible impl spec w && impl.IsOwnedByTeam w then [narrowed impl spec w] else [])
        ++ teamTier impl spec fleet := by
  unfold teamTier
  by_cases h : (compatible impl spec w && impl.IsOwnedByTeam w) = true
  · simp [List.filter_cons, h]
  · simp [List.filter_cons, h]

theorem sharedTier_cons (impl : WorkerImpl) (spec : WorkerSpec) (w : Worker)
    (fleet : List Worker) :
    sharedTier impl spec (w :: fleet) =
      (if compatible impl spec w && !impl.IsOwnedByTeam w then [narrowed impl spec w] else [])
        ++ sharedTier impl spec fleet := by
  unfold sharedTier
  by_cases h : (compatible impl spec w && !impl.IsOwnedByTeam w) = true
  · simp [List.filter_cons, h]
  · simp [List.filter_cons, h]

theorem scanCalls_cons (impl : WorkerImpl) (spec : WorkerSpec) (w : Worker)
    (fleet : List Worker) :
    scanCalls impl spec (w :: fleet) =
      (if compatible impl spec w then
          [Call.WorkerSatisfying w spec, Call.WorkerIsOwnedByTeam w]
        else [Call.WorkerSatisfying w spec]) ++ scanCalls impl spec fleet := by
  simp [scanCalls, List.flatMap_cons]

/-- The loop of `allSatisfying` appends the team tier, the shared tier and the
calls of the scan to its three variables. -/
theorem foldl_allSatisfyingBody (impl : WorkerImpl) (spec : WorkerSpec) :
    ∀ (fleet : List Worker) (acc : Compatible),
      fleet.foldl (allSatisfyingBody impl spec) acc =
        ⟨acc.compatibleTeamWorkers ++ teamTier impl spec fleet,
          acc.compatibleGeneralWorkers ++ sharedTier impl spec fleet,
          acc.calls ++ scanCalls impl spec fleet⟩ := by
  intro fleet
  induction fleet with
  | nil => intro acc; simp [teamTier, sharedTier, scanCalls]
  | cons w rest ih =>
    intro acc
    rw [List.foldl_cons, ih, teamTier_cons, sharedTier_cons, scanCalls_cons]
    unfold allSatisfyingBody
    cases hs : (impl.Satisfying w spec).2 with
    | some e => simp [compatible, narrowed, hs]
    | none =>
      cases ho : impl.IsOwnedByTeam w <;> simp [compatible, narrowed, hs, ho]

/-- The four ways `allSatisfying` ends, in terms of the tiers. -/
theorem allSatisfying_eq (impl : WorkerImpl) (p : pool) (spec : WorkerSpec) :
    p.allSatisfying impl spec =
      match p.provider.RunningWorkers.2 with
      | some e => ⟨([], some e), [Call.RunningWorkers]⟩
      | none =>
        if p.provider.RunningWorkers.1 = [] then
          ⟨([], some GoError.ErrNoWorkers), [Call.RunningWorkers]⟩
        else if preferredTier impl spec p.provider.RunningWorkers.1 ≠ [] then
          ⟨(preferredTier impl spec p.provider.RunningWorkers.1, none),
            Call.RunningWorkers :: scanCalls impl spec p.provider.RunningWorkers.1⟩
        else
          ⟨([], some (if spec.TeamID = 0 then GoError.ErrNoGlobalWorkers
                      else GoError.NoCompatibleWorkersError spec)),
            Call.RunningWorkers :: scanCalls impl spec p.provider.RunningWorkers.1⟩ := by
  unfold pool.allSatisfying
  cases he : p.provider.RunningWorkers.2 with
  | some e => simp
  | none =>
    by_cases hf : p.provider.RunningWorkers.1 = []
    · simp [hf]
    · simp only [List.length_eq_zero, hf, if_false, foldl_allSatisfyingBody, List.nil_append,
        List.singleton_append, preferredTier, ne_eq]
      by_cases ht : teamTier impl spec p.provider.RunningWorkers.1 = []
      · by_cases hg : sharedTier impl spec p.provider.RunningWorkers.1 = []
        · by_cases hz : spec.TeamID = 0 <;> simp [ht, hg, hz]
        · simp [ht, hg]
      · simp [ht]

theorem mem_teamTier (impl : WorkerImpl) (spec : WorkerSpec) (fleet : List Worker)
    (c : Worker) :
    c ∈ teamTier impl spec fleet ↔
      ∃ w ∈ fleet, compatible impl spec w = true ∧ impl.IsOwnedByTeam w = true ∧
        narrowed impl spec w = c := by
  simp [teamTier, List.mem_map, List.mem_filter, and_assoc]

theorem mem_sharedTier (impl : WorkerImpl) (spec : WorkerSpec) (fleet : List Worker)
    (c : Worker) :
    c ∈ sharedTier impl spec fleet ↔
      ∃ w ∈ fleet, compatible impl spec w = true ∧ impl.IsOwnedByTeam w = false ∧
        narrowed impl spec w = c := by
  simp [sharedTier, List.mem_map, List.mem_filter, and_assoc]

theorem teamTier_ne_nil_iff (impl : WorkerImpl) (spec : WorkerSpec) (fleet : List Worker) :
    teamTier impl spec fleet ≠ [] ↔
      ∃ w ∈ fleet, compatible impl spec w = true ∧ impl.IsOwnedByTeam w = true := by
  constructor
  · intro h
    obtain ⟨c, hc⟩ := List.exists_mem_of_ne_nil _ h
    obtain ⟨w, hw, h1, h2, _⟩ := (mem_teamTier impl spec fleet c).1 hc
    exact ⟨w, hw, h1, h2⟩
  · rintro ⟨w, hw, h1, h2⟩
    exact List.ne_nil_of_mem ((mem_teamTier impl spec fleet _).2 ⟨w, hw, h1, h2, rfl⟩)

theorem sharedTier_ne_nil_iff (impl : WorkerImpl) (spec : WorkerSpec) (fleet : List Worker) :
    sharedTier impl spec fleet ≠ [] ↔
      ∃ w ∈ fleet, compatible impl spec w = true ∧ impl.IsOwnedByTeam w = false := by
  constructor
  · intro h
    obtain ⟨c, hc⟩ := List.exists_mem_of_ne_nil _ h
    obtain ⟨w, hw, h1, h2, _⟩ := (mem_sharedTier impl spec fleet c).1 hc
    exact ⟨w, hw, h1, h2⟩
  · rintro ⟨w, hw, h1, h2⟩
    exact List.ne_nil_of_mem ((mem_sharedTier impl spec fleet _).2 ⟨w, hw, h1, h2, rfl⟩)

theorem preferredTier_ne_nil_iff (impl : WorkerImpl) (spec : WorkerSpec)
    (fleet : List Worker) :
    preferredTier impl spec fleet ≠ [] ↔ ∃ w ∈ fleet, compatible impl spec w = true := by
  unfold preferredTier
  by_cases ht : teamTier impl spec fleet = []
  · simp only [ht, ne_eq, not_true_eq_false, if_false]
    rw [← ne_eq, sharedTier_ne_nil_iff]
    constructor
    · rintro ⟨w, hw, h1, _⟩; exact ⟨w, hw, h1⟩
    · rintro ⟨w, hw, h1⟩
      refine ⟨w, hw, h1, ?_⟩
      cases ho : impl.IsOwnedByTeam w with
      | false => rfl
      | true =>
        exact absurd ht ((teamTier_ne_nil_iff impl spec fleet).2 ⟨w, hw, h1, ho⟩)
  · simp only [ne_eq, ht, not_false_eq_true, if_true, true_iff]
    obtain ⟨w, hw, h1, _⟩ := (teamTier_ne_nil_iff impl spec fleet).1 ht
    exact ⟨w, hw, h1⟩

theorem mem_preferredTier (impl : WorkerImpl) (spec : WorkerSpec) (fleet : List Worker)
    (c : Worker) (hc : c ∈ preferredTier impl spec fleet) :
    ∃ w ∈ fleet, compatible impl spec w = true ∧ narrowed impl spec w = c := by
  unfold preferredTier at hc
  by_cases ht : teamTier impl spec fleet = []
  · simp only [ht, ne_eq, not_true_eq_false, if_false] at hc
    obtain ⟨w, hw, h1, _, h3⟩ := (mem_sharedTier impl spec fleet c).1 hc
    exact ⟨w, hw, h1, h3⟩
  · simp only [ne_eq, ht, not_false_eq_true, if_true] at hc
    obtain ⟨w, hw, h1, _, h3⟩ := (mem_teamTier impl spec fleet c).1 hc
    exact ⟨w, hw, h1, h3⟩

/-! ## Facts about pool.Satisfying -/

/-- With a failing `allSatisfying`, `Satisfying` returns its error and calls
nothing else. -/
theorem Satisfying_of_error (impl : WorkerImpl) (p : pool) (spec : WorkerSpec) (e : GoError)
    (h : (p.allSatisfying impl spec).result.2 = some e) :
    p.Satisfying impl spec =
      ⟨Outcome.returned (none, some e), (p.allSatisfying impl spec).calls⟩ := by
  unfold pool.Satisfying
  simp [h]

/-- With candidates `L`, `Satisfying` returns the candidate at the position the
random source picks. -/
theorem Satisfying_of_candidates (impl : WorkerImpl) (p : pool) (spec : WorkerSpec)
    (L : List Worker) (h : (p.allSatisfying impl spec).result = (L, none)) (hL : L ≠ []) :
    ∃ w, L.get? (p.rand.next % L.length) = some w ∧
      p.Satisfying impl spec =
        ⟨Outcome.returned (some w, none),
          (p.allSatisfying impl spec).calls ++ [Call.Intn L.length]⟩ := by
  have hlen : L.length ≠ 0 := fun h0 => hL (List.length_eq_zero.1 h0)
  have hlt : p.rand.next % L.length < L.length := Nat.mod_lt _ (Nat.pos_of_ne_zero hlen)
  refine ⟨L.get ⟨p.rand.next % L.length, hlt⟩, List.get?_eq_get hlt, ?_⟩
  unfold pool.Satisfying
  simp only [h, Rand.Intn, hlen, if_false, List.get?_eq_get hlt]

/-- A successful Provider call and a non-empty preferred tier make
`allSatisfying` return that tier. -/
theorem allSatisfying_of_tier (impl : WorkerImpl) (p : pool) (spec : WorkerSpec)
    (hprov : p.provider.RunningWorkers.2 = none)
    (ht : preferredTier impl spec p.provider.RunningWorkers.1 ≠ []) :
    p.allSatisfying impl spec =
      ⟨(preferredTier impl spec p.provider.RunningWorkers.1, none),
        Call.RunningWorkers :: scanCalls impl spec p.provider.RunningWorkers.1⟩ := by
  have hne : p.provider.RunningWorkers.1 ≠ [] := by
    obtain ⟨w, hw, _⟩ := (preferredTier_ne_nil_iff impl spec _).1 ht
    exact List.ne_nil_of_mem hw
  rw [allSatisfying_eq]
  simp [hprov, hne, ht]

/-- A successful Provider call with a non-empty fleet and an empty preferred
tier make `allSatisfying` fail with the error chosen by `TeamID`. -/
theorem allSatisfying_of_no_tier (impl : WorkerImpl) (p : pool) (spec : WorkerSpec)
    (hprov : p.provider.RunningWorkers.2 = none)
    (hne : p.provider.RunningWorkers.1 ≠ [])
    (ht : preferredTier impl spec p.provider.RunningWorkers.1 = []) :
    p.allSatisfying impl spec =
      ⟨([], some (if spec.TeamID = 0 then GoError.ErrNoGlobalWorkers
                  else GoError.NoCompatibleWorkersError spec)),
        Call.RunningWorkers :: scanCalls impl spec p.provider.RunningWorkers.1⟩ := by
  rw [allSatisfying_eq]
  simp [hprov, hne, ht]

/-- An empty fleet makes `allSatisfying` fail with `ErrNoWorkers`. -/
theorem allSatisfying_of_empty (impl : WorkerImpl) (p : pool) (spec : WorkerSpec)
    (h : p.provider.RunningWorkers = ([], none)) :
    p.allSatisfying impl spec = ⟨([], some GoError.ErrNoWorkers), [Call.RunningWorkers]⟩ := by
  rw [allSatisfying_eq]
  simp [h]

/-- A failing Provider makes `allSatisfying` fail with the Provider's error. -/
theorem allSatisfying_of_provider_error (impl : WorkerImpl) (p : pool) (spec : WorkerSpec)
    (e : GoError) (h : p.provider.RunningWorkers.2 = some e) :
    p.allSatisfying impl spec = ⟨([], some e), [Call.RunningWorkers]⟩ := by
  rw [allSatisfying_eq]
  simp [h]

/-- No fleet worker compatible: the preferred tier is empty. -/
theorem preferredTier_eq_nil (impl : WorkerImpl) (spec : WorkerSpec) (fleet : List Worker)
    (h : ∀ w ∈ fleet, compatible impl spec w = false) : preferredTier impl spec fleet = [] := by
  by_contra hne
  obtain ⟨w, hw, hc⟩ := (preferredTier_ne_nil_iff impl spec fleet).1 hne
  rw [h w hw] at hc
  exact Bool.false_ne_true hc

/-- A compatible team-owned worker in the fleet: the preferred tier is the team
tier, and it is not empty. -/
theorem preferredTier_eq_teamTier (impl : WorkerImpl) (spec : WorkerSpec)
    (fleet : List Worker)
    (h : ∃ w ∈ fleet, compatible impl spec w = true ∧ impl.IsOwnedByTeam w = true) :
    preferredTier impl spec fleet = teamTier impl spec fleet ∧
      teamTier impl spec fleet ≠ [] := by
  have ht := (teamTier_ne_nil_iff impl spec fleet).2 h
  exact ⟨by simp [preferredTier, ht], ht⟩

/-! ## C1: tier preference of Satisfying -/

/-- C1, as stated, fails: in the fleet made of worker 5 alone, worker 5 is
team-owned and compatible, and `Satisfying` returns worker 6, the narrowed
worker of that check, which is shared. -/
theorem C1_counterexample :
    (samplePool [⟨5⟩] 0).provider.RunningWorkers = ([⟨5⟩], none) ∧
    compatible sampleImpl sampleSpec ⟨5⟩ = true ∧
    sampleImpl.IsOwnedByTeam ⟨5⟩ = true ∧
    ((samplePool [⟨5⟩] 0).Satisfying sampleImpl sampleSpec).result =
      Outcome.returned (some ⟨6⟩, none) ∧
    sampleImpl.IsOwnedByTeam ⟨6⟩ = false := by
  decide

/-- C1, amended: when the Provider returns a fleet in which some compatible
worker is team-owned, `Satisfying` succeeds for every state of the random
source, and the worker it returns is the narrowed worker returned by the
compatibility check of a team-owned fleet worker.  The returned worker is
itself team-owned whenever the checks return workers with the ownership flag of
their receiver. -/
theorem C1_satisfying_returns_check_of_team_worker (impl : WorkerImpl) (p : pool)
    (spec : WorkerSpec) (hprov : p.provider.RunningWorkers.2 = none)
    (hteam : ∃ w ∈ p.provider.RunningWorkers.1,
      compatible impl spec w = true ∧ impl.IsOwnedByTeam w = true) :
    (∃ w ∈ p.provider.RunningWorkers.1,
      compatible impl spec w = true ∧ impl.IsOwnedByTeam w = true ∧
      (p.Satisfying impl spec).result =
        Outcome.returned (some (narrowed impl spec w), none)) ∧
    ((∀ v ∈ p.provider.RunningWorkers.1, compatible impl spec v = true →
        impl.IsOwnedByTeam (narrowed impl spec v) = impl.IsOwnedByTeam v) →
      ∃ r, (p.Satisfying impl spec).result = Outcome.returned (some r, none) ∧
        impl.IsOwnedByTeam r = true) := by
  obtain ⟨hpref, hne⟩ := preferredTier_eq_teamTier impl spec _ hteam
  have hall := allSatisfying_of_tier impl p spec hprov (by rw [hpref]; exact hne)
  obtain ⟨r, hget, hsat⟩ := Satisfying_of_candidates impl p spec
    (teamTier impl spec p.provider.RunningWorkers.1) (by rw [hall, hpref]) hne
  obtain ⟨w, hw, hc, ho, hn⟩ := (mem_teamTier impl spec _ r).1 (List.get?_mem hget)
  have key : ∃ w ∈ p.provider.RunningWorkers.1,
      compatible impl spec w = true ∧ impl.IsOwnedByTeam w = true ∧
      (p.Satisfying impl spec).result =
        Outcome.returned (some (narrowed impl spec w), none) :=
    ⟨w, hw, hc, ho, by rw [hsat, hn]⟩
  refine ⟨key, fun hkeep => ?_⟩
  obtain ⟨w, hw, hc, ho, hres⟩ := key
  exact ⟨narrowed impl spec w, hres, by rw [hkeep w hw hc, ho]⟩

/-- C1, amended, on the fleet of the team-owned worker 1 and the shared worker
2: `Satisfying` returns worker 1. -/
theorem C1_satisfying_returns_check_of_team_worker_witness :
    ((samplePool [⟨2⟩, ⟨1⟩] 7).provider.RunningWorkers.2 = none ∧
      ∃ w ∈ (samplePool [⟨2⟩, ⟨1⟩] 7).provider.RunningWorkers.1,
        compatible sampleImpl sampleSpec w = true ∧ sampleImpl.IsOwnedByTeam w = true) ∧
    ∃ r, ((samplePool [⟨2⟩, ⟨1⟩] 7).Satisfying sampleImpl sampleSpec).result =
        Outcome.returned (some r, none) ∧ sampleImpl.IsOwnedByTeam r = true :=
  ⟨⟨rfl, ⟨1⟩, by decide, by decide, by decide⟩,
    (C1_satisfying_returns_check_of_team_worker sampleImpl (samplePool [⟨2⟩, ⟨1⟩] 7)
      sampleSpec rfl ⟨⟨1⟩, by decide, by decide, by decide⟩).2 (by decide)⟩

/-! ## C2: nothing compatible in a non-empty fleet -/

/-- C2: when the Provider returns a non-empty fleet none of whose workers is
compatible with `spec`, `Satisfying` fails with `ErrNoGlobalWorkers` if
`spec.TeamID == 0`, and otherwise with a `NoCompatibleWorkersError` whose `Spec`
is the spec passed in. -/
theorem C2_satisfying_no_compatible_worker (impl : WorkerImpl) (p : pool) (spec : WorkerSpec)
    (hprov : p.provider.RunningWorkers.2 = none)
    (hne : p.provider.RunningWorkers.1 ≠ [])
    (hnone : ∀ w ∈ p.provider.RunningWorkers.1, (impl.Satisfying w spec).2 ≠ none) :
    (spec.TeamID = 0 →
      (p.Satisfying impl spec).result =
        Outcome.returned (none, some GoError.ErrNoGlobalWorkers)) ∧
    (spec.TeamID ≠ 0 →
      (p.Satisfying impl spec).result =
        Outcome.returned (none, some (GoError.NoCompatibleWorkersError spec))) := by
  have hincomp : ∀ w ∈ p.provider.RunningWorkers.1, compatible impl spec w = false := by
    intro w hw
    have := hnone w hw
    cases hs : (impl.Satisfying w spec).2 with
    | none => exact absurd hs this
    | some e => simp [compatible, hs]
  have hall := allSatisfying_of_no_tier impl p spec hprov hne
    (preferredTier_eq_nil impl spec _ hincomp)
  constructor
  · intro hz
    rw [Satisfying_of_error impl p spec GoError.ErrNoGlobalWorkers (by rw [hall]; simp [hz])]
  · intro hz
    rw [Satisfying_of_error impl p spec (GoError.NoCompatibleWorkersError spec)
      (by rw [hall]; simp [hz])]

/-- C2 on the fleet made of the incompatible worker 4: a request of team 5
fails with the error carrying that request, an anonymous one with
`ErrNoGlobalWorkers`. -/
theorem C2_satisfying_no_compatible_worker_witness :
    ((samplePool [⟨4⟩] 0).provider.RunningWorkers = ([⟨4⟩], none) ∧
      (sampleImpl.Satisfying ⟨4⟩ sampleSpec).2 ≠ none ∧
      (sampleImpl.Satisfying ⟨4⟩ WorkerSpec.zero).2 ≠ none) ∧
    ((samplePool [⟨4⟩] 0).Satisfying sampleImpl sampleSpec).result =
        Outcome.returned (none, some (GoError.NoCompatibleWorkersError sampleSpec)) ∧
    ((samplePool [⟨4⟩] 0).Satisfying sampleImpl WorkerSpec.zero).result =
        Outcome.returned (none, some GoError.ErrNoGlobalWorkers) :=
  ⟨by decide, (C2_satisfying_no_compatible_worker sampleImpl (samplePool [⟨4⟩] 0) sampleSpec rfl
      (by decide) (by decide)).2 (by decide),
    (C2_satisfying_no_compatible_worker sampleImpl (samplePool [⟨4⟩] 0) WorkerSpec.zero rfl
      (by decide) (by decide)).1 (by decide)⟩

/-! ## C3: the empty fleet -/

/-- C3: when the Provider reports an empty fleet without error, `Satisfying`
fails with `ErrNoWorkers` for every spec and `CreateVolume` fails with
`ErrNoWorkers` for every volume spec, team and volume type; the only
collaborator call either makes is `RunningWorkers`, so `CreateVolume` is called
on no worker. -/
theorem C3_empty_fleet (impl : WorkerImpl) (p : pool)
    (hfleet : p.provider.RunningWorkers = ([], none)) :
    (∀ spec : WorkerSpec,
      p.Satisfying impl spec =
        ⟨Outcome.returned (none, some GoError.ErrNoWorkers), [Call.RunningWorkers]⟩) ∧
    (∀ (spec : VolumeSpec) (teamID : Int) (volumeType : VolumeType),
      p.CreateVolume impl spec teamID volumeType =
        ⟨Outcome.returned (none, some GoError.ErrNoWorkers), [Call.RunningWorkers]⟩ ∧
      ∀ (w : Worker) (s : VolumeSpec) (t : Int) (v : VolumeType),
        Call.WorkerCreateVolume w s t v ∉
          (p.CreateVolume impl spec teamID volumeType).calls) := by
  have hsat : ∀ spec : WorkerSpec,
      p.Satisfying impl spec =
        ⟨Outcome.returned (none, some GoError.ErrNoWorkers), [Call.RunningWorkers]⟩ := by
    intro spec
    have hall := allSatisfying_of_empty impl p spec hfleet
    rw [Satisfying_of_error impl p spec GoError.ErrNoWorkers (by rw [hall]), hall]
  have hcv : ∀ (spec : VolumeSpec) (teamID : Int) (volumeType : VolumeType),
      p.CreateVolume impl spec teamID volumeType =
        ⟨Outcome.returned (none, some GoError.ErrNoWorkers), [Call.RunningWorkers]⟩ := by
    intro spec teamID volumeType
    unfold pool.CreateVolume
    simp [hsat]
  refine ⟨hsat, fun spec teamID volumeType => ⟨hcv spec teamID volumeType, ?_⟩⟩
  intro w s t v
  rw [hcv]
  simp

/-- C3 on the pool with the empty fleet: `CreateVolume` for team 5 fails with
`ErrNoWorkers`. -/
theorem C3_empty_fleet_witness :
    (samplePool [] 3).provider.RunningWorkers = ([], none) ∧
    (samplePool [] 3).Satisfying sampleImpl sampleSpec =
      ⟨Outcome.returned (none, some GoError.ErrNoWorkers), [Call.RunningWorkers]⟩ ∧
    (samplePool [] 3).CreateVolume sampleImpl ⟨0, [], false, 0⟩ 5 ⟨0⟩ =
      ⟨Outcome.returned (none, some GoError.ErrNoWorkers), [Call.RunningWorkers]⟩ :=
  ⟨rfl, (C3_empty_fleet sampleImpl (samplePool [] 3) rfl).1 sampleSpec,
    ((C3_empty_fleet sampleImpl (samplePool [] 3) rfl).2 ⟨0, [], false, 0⟩ 5 ⟨0⟩).1⟩

/-! ## Facts about traces -/

theorem callsOf_append (m : Method) (xs ys : List Call) :
    callsOf m (xs ++ ys) = callsOf m xs ++ callsOf m ys := by
  simp [callsOf]

theorem callsOf_cons (m : Method) (c : Call) (xs : List Call) :
    callsOf m (c :: xs) = (if c.method = m then [c] else []) ++ callsOf m xs := by
  by_cases h : c.method = m <;> simp [callsOf, List.filter_cons, h]

theorem callsOf_nil (m : Method) : callsOf m [] = [] := rfl

/-- The scan of the fleet calls `Satisfying` and `IsOwnedByTeam` only. -/
theorem method_of_mem_scanCalls (impl : WorkerImpl) (spec : WorkerSpec) (fleet : List Worker)
    (c : Call) (hc : c ∈ scanCalls impl spec fleet) :
    c.method = Method.WorkerSatisfying ∨ c.method = Method.WorkerIsOwnedByTeam := by
  unfold scanCalls at hc
  rw [List.mem_flatMap] at hc
  obtain ⟨w, _, hw⟩ := hc
  by_cases hcomp : compatible impl spec w = true
  · simp only [hcomp, if_true, List.mem_cons, List.mem_singleton, List.not_mem_nil,
      or_false] at hw
    rcases hw with h | h <;> simp [h, Call.method]
  · simp only [hcomp, Bool.false_eq_true, if_false, List.mem_singleton] at hw
    simp [hw, Call.method]

theorem callsOf_scanCalls (impl : WorkerImpl) (spec : WorkerSpec) (fleet : List Worker)
    (m : Method) (h1 : m ≠ Method.WorkerSatisfying) (h2 : m ≠ Method.WorkerIsOwnedByTeam) :
    callsOf m (scanCalls impl spec fleet) = [] := by
  unfold callsOf
  rw [List.filter_eq_nil_iff]
  intro c hc
  rcases method_of_mem_scanCalls impl spec fleet c hc with h | h
  · simp [h, Ne.symm h1]
  · simp [h, Ne.symm h2]

/-- The trace of `allSatisfying`: the call of `RunningWorkers`, then the scan
of the fleet if the Provider did not fail. -/
theorem allSatisfying_calls (impl : WorkerImpl) (p : pool) (spec : WorkerSpec) :
    (p.allSatisfying impl spec).calls =
      Call.RunningWorkers ::
        (if p.provider.RunningWorkers.2 = none then
          scanCalls impl spec p.provider.RunningWorkers.1 else []) := by
  rw [allSatisfying_eq]
  cases he : p.provider.RunningWorkers.2 with
  | some e => simp
  | none =>
    by_cases hf : p.provider.RunningWorkers.1 = []
    · simp [hf, scanCalls]
    · by_cases ht : preferredTier impl spec p.provider.RunningWorkers.1 = [] <;>
        simp [hf, ht]

theorem callsOf_allSatisfying (impl : WorkerImpl) (p : pool) (spec : WorkerSpec)
    (m : Method) (h1 : m ≠ Method.WorkerSatisfying) (h2 : m ≠ Method.WorkerIsOwnedByTeam) :
    callsOf m (p.allSatisfying impl spec).calls =
      if m = Method.RunningWorkers then [Call.RunningWorkers] else [] := by
  rw [allSatisfying_calls, callsOf_cons]
  have htail : callsOf m (if p.provider.RunningWorkers.2 = none then
      scanCalls impl spec p.provider.RunningWorkers.1 else []) = [] := by
    by_cases he : p.provider.RunningWorkers.2 = none
    · simp only [he, if_true]; exact callsOf_scanCalls impl spec _ m h1 h2
    · simp only [he, if_false]; rfl
  rw [htail]
  by_cases hm : m = Method.RunningWorkers
  · simp [hm, Call.method]
  · simp [hm, Call.method, Ne.symm hm]

/-- A successful `allSatisfying`: the Provider succeeded, the preferred tier
is not empty, and it is the list returned. -/
theorem allSatisfying_ok (impl : WorkerImpl) (p : pool) (spec : WorkerSpec)
    (h : (p.allSatisfying impl spec).result.2 = none) :
    p.provider.RunningWorkers.2 = none ∧
      preferredTier impl spec p.provider.RunningWorkers.1 ≠ [] ∧
      (p.allSatisfying impl spec).result.1 =
        preferredTier impl spec p.provider.RunningWorkers.1 := by
  rw [allSatisfying_eq] at h ⊢
  cases he : p.provider.RunningWorkers.2 with
  | some e => simp [he] at h
  | none =>
    by_cases hf : p.provider.RunningWorkers.1 = []
    · simp [he, hf] at h
    · by_cases ht : preferredTier impl spec p.provider.RunningWorkers.1 = []
      · simp [he, hf, ht] at h
      · simp [hf, ht]

/-! ## The five paths of pool.FindOrCreateContainer -/

/-- Path 1: the owner lookup fails. -/
theorem FindOrCreateContainer_lookup_error (impl : WorkerImpl) (p : pool) (ctx : Context)
    (delegate : ImageFetchingDelegate) (owner : ContainerOwner)
    (metadata : ContainerMetadata) (containerSpec : ContainerSpec)
    (workerSpec : WorkerSpec) (resourceTypes : VersionedResourceTypes) (e : GoError)
    (herr : (p.provider.FindWorkerForContainerByOwner workerSpec.TeamID owner).2.2 = some e) :
    p.FindOrCreateContainer impl ctx delegate owner metadata containerSpec workerSpec
        resourceTypes =
      ⟨(none, some e), [Call.FindWorkerForContainerByOwner workerSpec.TeamID owner]⟩ := by
  unfold pool.FindOrCreateContainer
  simp [herr]

/-- Path 2: the owner lookup finds a worker. -/
theorem FindOrCreateContainer_found (impl : WorkerImpl) (p : pool) (ctx : Context)
    (delegate : ImageFetchingDelegate) (owner : ContainerOwner)
    (metadata : ContainerMetadata) (containerSpec : ContainerSpec)
    (workerSpec : WorkerSpec) (resourceTypes : VersionedResourceTypes)
    (herr : (p.provider.FindWorkerForContainerByOwner workerSpec.TeamID owner).2.2 = none)
    (hfound : (p.provider.FindWorkerForContainerByOwner workerSpec.TeamID owner).2.1 = true) :
    p.FindOrCreateContainer impl ctx delegate owner metadata containerSpec workerSpec
        resourceTypes =
      ⟨impl.FindOrCreateContainer
          (p.provider.FindWorkerForContainerByOwner workerSpec.TeamID owner).1
          ctx delegate owner metadata containerSpec workerSpec resourceTypes,
        [Call.FindWorkerForContainerByOwner workerSpec.TeamID owner,
          Call.WorkerFindOrCreateContainer
            (p.provider.FindWorkerForContainerByOwner workerSpec.TeamID owner).1
            ctx delegate owner metadata containerSpec workerSpec resourceTypes]⟩ := by
  unfold pool.FindOrCreateContainer
  simp [herr, hfound]

/-- Path 3: no owner, and the compatible set cannot be computed. -/
theorem FindOrCreateContainer_no_candidates (impl : WorkerImpl) (p : pool) (ctx : Context)
    (delegate : ImageFetchingDelegate) (owner : ContainerOwner)
    (metadata : ContainerMetadata) (containerSpec : ContainerSpec)
    (workerSpec : WorkerSpec) (resourceTypes : VersionedResourceTypes) (e : GoError)
    (herr : (p.provider.FindWorkerForContainerByOwner workerSpec.TeamID owner).2.2 = none)
    (hfound : (p.provider.FindWorkerForContainerByOwner workerSpec.TeamID owner).2.1 = false)
    (hall : (p.allSatisfying impl workerSpec).result.2 = some e) :
    p.FindOrCreateContainer impl ctx delegate owner metadata containerSpec workerSpec
        resourceTypes =
      ⟨(none, some e),
        Call.FindWorkerForContainerByOwner workerSpec.TeamID owner ::
          (p.allSatisfying impl workerSpec).calls⟩ := by
  unfold pool.FindOrCreateContainer
  simp [herr, hfound, hall]

/-- Path 4: no owner, candidates, and the strategy fails. -/
theorem FindOrCreateContainer_choose_error (impl : WorkerImpl) (p : pool) (ctx : Context)
    (delegate : ImageFetchingDelegate) (owner : ContainerOwner)
    (metadata : ContainerMetadata) (containerSpec : ContainerSpec)
    (workerSpec : WorkerSpec) (resourceTypes : VersionedResourceTypes) (e : GoError)
    (herr : (p.provider.FindWorkerForContainerByOwner workerSpec.TeamID owner).2.2 = none)
    (hfound : (p.provider.FindWorkerForContainerByOwner workerSpec.TeamID owner).2.1 = false)
    (hall : (p.allSatisfying impl workerSpec).result.2 = none)
    (hchoose : (p.strategy.Choose (p.allSatisfying impl workerSpec).result.1
      containerSpec).2 = some e) :
    p.FindOrCreateContainer impl ctx delegate owner metadata containerSpec workerSpec
        resourceTypes =
      ⟨(none, some e),
        Call.FindWorkerForContainerByOwner workerSpec.TeamID owner ::
          ((p.allSatisfying impl workerSpec).calls ++
            [Call.Choose (p.allSatisfying impl workerSpec).result.1 containerSpec])⟩ := by
  unfold pool.FindOrCreateContainer
  simp [herr, hfound, hall, hchoose]

/-- Path 5: no owner, candidates, and the strategy chooses a worker. -/
theorem FindOrCreateContainer_chosen (impl : WorkerImpl) (p : pool) (ctx : Context)
    (delegate : ImageFetchingDelegate) (owner : ContainerOwner)
    (metadata : ContainerMetadata) (containerSpec : ContainerSpec)
    (workerSpec : WorkerSpec) (resourceTypes : VersionedResourceTypes)
    (herr : (p.provider.FindWorkerForContainerByOwner workerSpec.TeamID owner).2.2 = none)
    (hfound : (p.provider.FindWorkerForContainerByOwner workerSpec.TeamID owner).2.1 = false)
    (hall : (p.allSatisfying impl workerSpec).result.2 = none)
    (hchoose : (p.strategy.Choose (p.allSatisfying impl workerSpec).result.1
      containerSpec).2 = none) :
    p.FindOrCreateContainer impl ctx delegate owner metadata containerSpec workerSpec
        resourceTypes =
      ⟨impl.FindOrCreateContainer
          (p.strategy.Choose (p.allSatisfying impl workerSpec).result.1 containerSpec).1
          ctx delegate owner metadata containerSpec workerSpec resourceTypes,
        Call.FindWorkerForContainerByOwner workerSpec.TeamID owner ::
          ((p.allSatisfying impl workerSpec).calls ++
            [Call.Choose (p.allSatisfying impl workerSpec).result.1 containerSpec,
              Call.WorkerFindOrCreateContainer
                (p.strategy.Choose (p.allSatisfying impl workerSpec).result.1
                  containerSpec).1
                ctx delegate owner metadata containerSpec workerSpec resourceTypes])⟩ := by
  unfold pool.FindOrCreateContainer
  simp [herr, hfound, hall, hchoose]

/-- No call of `allSatisfying` is a call of method `m`, for `m` not one of its
three methods. -/
theorem not_mem_allSatisfying_calls (impl : WorkerImpl) (p : pool) (spec : WorkerSpec)
    (c : Call) (h0 : c.method ≠ Method.RunningWorkers)
    (h1 : c.method ≠ Method.WorkerSatisfying) (h2 : c.method ≠ Method.WorkerIsOwnedByTeam) :
    c ∉ (p.allSatisfying impl spec).calls := by
  intro hc
  rw [allSatisfying_calls] at hc
  rcases List.mem_cons.1 hc with h | h
  · exact h0 (by rw [h]; rfl)
  · by_cases he : p.provider.RunningWorkers.2 = none
    · simp only [he, if_true] at h
      rcases method_of_mem_scanCalls impl spec _ c h with h' | h'
      · exact h1 h'
      · exact h2 h'
    · simp [he] at h

/-- In a trace of `FindOrCreateContainer`, a call of a worker's
`FindOrCreateContainer` is the only such call, and its answer is the result. -/
theorem FindOrCreateContainer_creation_unique (impl : WorkerImpl) (p : pool) (ctx : Context)
    (delegate : ImageFetchingDelegate) (owner : ContainerOwner)
    (metadata : ContainerMetadata) (containerSpec : ContainerSpec)
    (workerSpec : WorkerSpec) (resourceTypes : VersionedResourceTypes) (c : Call)
    (hm : c.method = Method.WorkerFindOrCreateContainer)
    (hc : c ∈ (p.FindOrCreateContainer impl ctx delegate owner metadata containerSpec
      workerSpec resourceTypes).calls) :
    ∃ w, c = Call.WorkerFindOrCreateContainer w ctx delegate owner metadata containerSpec
        workerSpec resourceTypes ∧
      callsOf Method.WorkerFindOrCreateContainer
        (p.FindOrCreateContainer impl ctx delegate owner metadata containerSpec workerSpec
          resourceTypes).calls = [c] ∧
      (p.FindOrCreateContainer impl ctx delegate owner metadata containerSpec workerSpec
          resourceTypes).result =
        impl.FindOrCreateContainer w ctx delegate owner metadata containerSpec workerSpec
          resourceTypes := by
  have hnotall : c ∉ (p.allSatisfying impl workerSpec).calls :=
    not_mem_allSatisfying_calls impl p workerSpec c (by rw [hm]; decide) (by rw [hm]; decide)
      (by rw [hm]; decide)
  have hcalls := callsOf_allSatisfying impl p workerSpec Method.WorkerFindOrCreateContainer
    (by decide) (by decide)
  cases herr : (p.provider.FindWorkerForContainerByOwner workerSpec.TeamID owner).2.2 with
  | some e =>
    rw [FindOrCreateContainer_lookup_error impl p ctx delegate owner metadata containerSpec
      workerSpec resourceTypes e herr] at hc
    simp only [List.mem_singleton] at hc
    rw [hc] at hm
    exact absurd hm (by simp [Call.method])
  | none =>
    cases hfound : (p.provider.FindWorkerForContainerByOwner workerSpec.TeamID owner).2.1 with
    | true =>
      rw [FindOrCreateContainer_found impl p ctx delegate owner metadata containerSpec
        workerSpec resourceTypes herr hfound] at hc ⊢
      simp only [List.mem_cons, List.mem_singleton, List.not_mem_nil, or_false] at hc
      rcases hc with h | h
      · rw [h] at hm; exact absurd hm (by simp [Call.method])
      · exact ⟨_, h, by simp [callsOf, Call.method, h], rfl⟩
    | false =>
      cases hall : (p.allSatisfying impl workerSpec).result.2 with
      | some e =>
        rw [FindOrCreateContainer_no_candidates impl p ctx delegate owner metadata
          containerSpec workerSpec resourceTypes e herr hfound hall] at hc
        rcases List.mem_cons.1 hc with h | h
        · rw [h] at hm; exact absurd hm (by simp [Call.method])
        · exact absurd h hnotall
      | none =>
        cases hch : (p.strategy.Choose (p.allSatisfying impl workerSpec).result.1
            containerSpec).2 with
        | some e =>
          rw [FindOrCreateContainer_choose_error impl p ctx delegate owner metadata
            containerSpec workerSpec resourceTypes e herr hfound hall hch] at hc
          rcases List.mem_cons.1 hc with h | h
          · rw [h] at hm; exact absurd hm (by simp [Call.method])
          · rcases List.mem_append.1 h with h | h
            · exact absurd h hnotall
            · simp only [List.mem_singleton] at h
              rw [h] at hm; exact absurd hm (by simp [Call.method])
        | none =>
          rw [FindOrCreateContainer_chosen impl p ctx delegate owner metadata
            containerSpec workerSpec resourceTypes herr hfound hall hch] at hc ⊢
          rcases List.mem_cons.1 hc with h | h
          · rw [h] at hm; exact absurd hm (by simp [Call.method])
          · rcases List.mem_append.1 h with h | h
            · exact absurd h hnotall
            · simp only [List.mem_cons, List.mem_singleton, List.not_mem_nil,
                or_false] at h
              rcases h with h | h
              · rw [h] at hm; exact absurd hm (by simp [Call.method])
              · refine ⟨_, h, ?_, rfl⟩
                rw [callsOf_cons, callsOf_append, hcalls, h]
                simp [callsOf, Call.method]

/-! ## C4: reuse of an existing owner -/

/-- C4: when the Provider reports worker `w` as found for
`(workerSpec.TeamID, owner)`, `FindOrCreateContainer` returns what
`w.FindOrCreateContainer` returns for the same arguments, after exactly two
collaborator calls, the lookup and that call: `RunningWorkers` and `Choose` are
not called.  Every pool whose lookup gives the same answer returns the same,
whatever its fleet, strategy and random source.  So when a call of any pool
resolved to `w`, that call and this one each call `FindOrCreateContainer` on
`w` and on no other worker. -/
theorem C4_reuse_existing_owner (impl : WorkerImpl) (p : pool) (ctx : Context)
    (delegate : ImageFetchingDelegate) (owner : ContainerOwner)
    (metadata : ContainerMetadata) (containerSpec : ContainerSpec)
    (workerSpec : WorkerSpec) (resourceTypes : VersionedResourceTypes) (w : Worker)
    (hfound : p.provider.FindWorkerForContainerByOwner workerSpec.TeamID owner =
      (w, true, none)) :
    p.FindOrCreateContainer impl ctx delegate owner metadata containerSpec workerSpec
        resourceTypes =
      ⟨impl.FindOrCreateContainer w ctx delegate owner metadata containerSpec workerSpec
          resourceTypes,
        [Call.FindWorkerForContainerByOwner workerSpec.TeamID owner,
          Call.WorkerFindOrCreateContainer w ctx delegate owner metadata containerSpec
            workerSpec resourceTypes]⟩ ∧
    callsOf Method.RunningWorkers
      (p.FindOrCreateContainer impl ctx delegate owner metadata containerSpec workerSpec
        resourceTypes).calls = [] ∧
    callsOf Method.Choose
      (p.FindOrCreateContainer impl ctx delegate owner metadata containerSpec workerSpec
        resourceTypes).calls = [] ∧
    (∀ q : pool,
      q.provider.FindWorkerForContainerByOwner workerSpec.TeamID owner = (w, true, none) →
      q.FindOrCreateContainer impl ctx delegate owner metadata containerSpec workerSpec
          resourceTypes =
        p.FindOrCreateContainer impl ctx delegate owner metadata containerSpec workerSpec
          resourceTypes) ∧
    (∀ first : pool,
      Call.WorkerFindOrCreateContainer w ctx delegate owner metadata containerSpec
          workerSpec resourceTypes ∈
        (first.FindOrCreateContainer impl ctx delegate owner metadata containerSpec
          workerSpec resourceTypes).calls →
      callsOf Method.WorkerFindOrCreateContainer
          (first.FindOrCreateContainer impl ctx delegate owner metadata containerSpec
            workerSpec resourceTypes).calls =
        [Call.WorkerFindOrCreateContainer w ctx delegate owner metadata containerSpec
          workerSpec resourceTypes] ∧
      callsOf Method.WorkerFindOrCreateContainer
          (p.FindOrCreateContainer impl ctx delegate owner metadata containerSpec
            workerSpec resourceTypes).calls =
        [Call.WorkerFindOrCreateContainer w ctx delegate owner metadata containerSpec
          workerSpec resourceTypes]) := by
  have hpath : ∀ q : pool,
      q.provider.FindWorkerForContainerByOwner workerSpec.TeamID owner = (w, true, none) →
      q.FindOrCreateContainer impl ctx delegate owner metadata containerSpec workerSpec
          resourceTypes =
        ⟨impl.FindOrCreateContainer w ctx delegate owner metadata containerSpec workerSpec
            resourceTypes,
          [Call.FindWorkerForContainerByOwner workerSpec.TeamID owner,
            Call.WorkerFindOrCreateContainer w ctx delegate owner metadata containerSpec
              workerSpec resourceTypes]⟩ := by
    intro q hq
    have h := FindOrCreateContainer_found impl q ctx delegate owner metadata containerSpec
      workerSpec resourceTypes (by rw [hq]) (by rw [hq])
    rw [hq] at h
    exact h
  have hp := hpath p hfound
  refine ⟨hp, ?_, ?_, ?_, ?_⟩
  · rw [hp]; simp [callsOf, Call.method]
  · rw [hp]; simp [callsOf, Call.method]
  · intro q hq; rw [hpath q hq, hp]
  · intro first hfirst
    obtain ⟨_, _, hone, _⟩ := FindOrCreateContainer_creation_unique impl first ctx delegate
      owner metadata containerSpec workerSpec resourceTypes
      (Call.WorkerFindOrCreateContainer w ctx delegate owner metadata containerSpec
        workerSpec resourceTypes) rfl hfirst
    refine ⟨hone, ?_⟩
    rw [hp]; simp [callsOf, Call.method]

/-- C4 on a pool whose lookup reports worker 6: the container of worker 6 is
returned after two calls; and the first call, on a pool without owner whose
strategy chose worker 6, called `FindOrCreateContainer` on worker 6 only. -/
theorem C4_reuse_existing_owner_witness :
    (scriptedPool ([], none) (⟨6⟩, true, none) none 0).provider.FindWorkerForContainerByOwner
        sampleSpec.TeamID ⟨0⟩ = (⟨6⟩, true, none) ∧
    (scriptedPool ([], none) (⟨6⟩, true, none) none 0).FindOrCreateContainer sampleImpl
        ⟨0⟩ ⟨0⟩ ⟨0⟩ ⟨0⟩ ⟨0⟩ sampleSpec ⟨0⟩ =
      ⟨(some ⟨6⟩, none),
        [Call.FindWorkerForContainerByOwner 5 ⟨0⟩,
          Call.WorkerFindOrCreateContainer ⟨6⟩ ⟨0⟩ ⟨0⟩ ⟨0⟩ ⟨0⟩ ⟨0⟩ sampleSpec ⟨0⟩]⟩ ∧
    callsOf Method.WorkerFindOrCreateContainer
        ((samplePool [⟨4⟩, ⟨2⟩, ⟨6⟩] 0).FindOrCreateContainer sampleImpl
          ⟨0⟩ ⟨0⟩ ⟨0⟩ ⟨0⟩ ⟨0⟩ sampleSpec ⟨0⟩).calls =
      [Call.WorkerFindOrCreateContainer ⟨6⟩ ⟨0⟩ ⟨0⟩ ⟨0⟩ ⟨0⟩ ⟨0⟩ sampleSpec ⟨0⟩] :=
  ⟨rfl,
    (C4_reuse_existing_owner sampleImpl (scriptedPool ([], none) (⟨6⟩, true, none) none 0)
      ⟨0⟩ ⟨0⟩ ⟨0⟩ ⟨0⟩ ⟨0⟩ sampleSpec ⟨0⟩ ⟨6⟩ rfl).1,
    ((C4_reuse_existing_owner sampleImpl (scriptedPool ([], none) (⟨6⟩, true, none) none 0)
      ⟨0⟩ ⟨0⟩ ⟨0⟩ ⟨0⟩ ⟨0⟩ sampleSpec ⟨0⟩ ⟨6⟩ rfl).2.2.2.2
        (samplePool [⟨4⟩, ⟨2⟩, ⟨6⟩] 0) (by decide)).1⟩

/-! ## Ownership of the check results -/

/-- When the checks return workers with the ownership flag of their receiver,
every member of the team tier is team-owned. -/
theorem owned_of_mem_teamTier (impl : WorkerImpl) (spec : WorkerSpec) (fleet : List Worker)
    (hkeep : ∀ v ∈ fleet, (impl.Satisfying v spec).2 = none →
      impl.IsOwnedByTeam (impl.Satisfying v spec).1 = impl.IsOwnedByTeam v)
    (c : Worker) (hc : c ∈ teamTier impl spec fleet) : impl.IsOwnedByTeam c = true := by
  obtain ⟨w, hw, hcomp, hown, hn⟩ := (mem_teamTier impl spec fleet c).1 hc
  have hs : (impl.Satisfying w spec).2 = none := by simpa [compatible] using hcomp
  rw [← hn, narrowed, hkeep w hw hs, hown]

/-- When the checks return workers with the ownership flag of their receiver,
every member of the shared tier is shared. -/
theorem shared_of_mem_sharedTier (impl : WorkerImpl) (spec : WorkerSpec)
    (fleet : List Worker)
    (hkeep : ∀ v ∈ fleet, (impl.Satisfying v spec).2 = none →
      impl.IsOwnedByTeam (impl.Satisfying v spec).1 = impl.IsOwnedByTeam v)
    (c : Worker) (hc : c ∈ sharedTier impl spec fleet) : impl.IsOwnedByTeam c = false := by
  obtain ⟨w, hw, hcomp, hown, hn⟩ := (mem_sharedTier impl spec fleet c).1 hc
  have hs : (impl.Satisfying w spec).2 = none := by simpa [compatible] using hcomp
  rw [← hn, narrowed, hkeep w hw hs, hown]

/-! ## C5: what the placement strategy is given -/

/-- A call of `Choose` in a trace of `FindOrCreateContainer` was made on the
placement path, with the list `allSatisfying` returned. -/
theorem FindOrCreateContainer_choose_inv (impl : WorkerImpl) (p : pool) (ctx : Context)
    (delegate : ImageFetchingDelegate) (owner : ContainerOwner)
    (metadata : ContainerMetadata) (containerSpec : ContainerSpec)
    (workerSpec : WorkerSpec) (resourceTypes : VersionedResourceTypes)
    (candidates : List Worker) (cs : ContainerSpec)
    (hcall : Call.Choose candidates cs ∈
      (p.FindOrCreateContainer impl ctx delegate owner metadata containerSpec workerSpec
        resourceTypes).calls) :
    (p.provider.FindWorkerForContainerByOwner workerSpec.TeamID owner).2.2 = none ∧
    (p.provider.FindWorkerForContainerByOwner workerSpec.TeamID owner).2.1 = false ∧
    (p.allSatisfying impl workerSpec).result.2 = none ∧
    candidates = (p.allSatisfying impl workerSpec).result.1 ∧ cs = containerSpec := by
  have hnotall : Call.Choose candidates cs ∉ (p.allSatisfying impl workerSpec).calls :=
    not_mem_allSatisfying_calls impl p workerSpec _ (by simp [Call.method])
      (by simp [Call.method]) (by simp [Call.method])
  cases herr : (p.provider.FindWorkerForContainerByOwner workerSpec.TeamID owner).2.2 with
  | some e =>
    rw [FindOrCreateContainer_lookup_error impl p ctx delegate owner metadata containerSpec
      workerSpec resourceTypes e herr] at hcall
    simp at hcall
  | none =>
    cases hfound : (p.provider.FindWorkerForContainerByOwner workerSpec.TeamID owner).2.1 with
    | true =>
      rw [FindOrCreateContainer_found impl p ctx delegate owner metadata containerSpec
        workerSpec resourceTypes herr hfound] at hcall
      simp at hcall
    | false =>
      cases hall : (p.allSatisfying impl workerSpec).result.2 with
      | some e =>
        rw [FindOrCreateContainer_no_candidates impl p ctx delegate owner metadata
          containerSpec workerSpec resourceTypes e herr hfound hall] at hcall
        rcases List.mem_cons.1 hcall with h | h
        · simp at h
        · exact absurd h hnotall
      | none =>
        have hlast : Call.Choose candidates cs =
            Call.Choose (p.allSatisfying impl workerSpec).result.1 containerSpec := by
          cases hch : (p.strategy.Choose (p.allSatisfying impl workerSpec).result.1
              containerSpec).2 with
          | some e =>
            rw [FindOrCreateContainer_choose_error impl p ctx delegate owner metadata
              containerSpec workerSpec resourceTypes e herr hfound hall hch] at hcall
            rcases List.mem_cons.1 hcall with h | h
            · simp at h
            · rcases List.mem_append.1 h with h | h
              · exact absurd h hnotall
              · exact List.mem_singleton.1 h
          | none =>
            rw [FindOrCreateContainer_chosen impl p ctx delegate owner metadata
              containerSpec workerSpec resourceTypes herr hfound hall hch] at hcall
            rcases List.mem_cons.1 hcall with h | h
            · simp at h
            · rcases List.mem_append.1 h with h | h
              · exact absurd h hnotall
              · simp only [List.mem_cons, List.mem_singleton, List.not_mem_nil,
                  or_false] at h
                rcases h with h | h
                · exact h
                · simp at h
        injection hlast with h1 h2
        exact ⟨rfl, rfl, rfl, h1, h2⟩

/-- C5, as stated, fails: in the fleet of the team-owned compatible worker 5
and the shared compatible worker 2, `Choose` is handed the list `[6]`, and
worker 6, the worker the check of worker 5 returned, is shared: the candidates
are not team-owned workers although a team-owned compatible worker exists. -/
theorem C5_counterexample :
    sampleImpl.IsOwnedByTeam ⟨5⟩ = true ∧ (sampleImpl.Satisfying ⟨5⟩ sampleSpec).2 = none ∧
    (samplePool [⟨5⟩, ⟨2⟩] 0).provider.FindWorkerForContainerByOwner sampleSpec.TeamID ⟨0⟩ =
      (⟨0⟩, false, none) ∧
    Call.Choose [⟨6⟩] ⟨1⟩ ∈
      ((samplePool [⟨5⟩, ⟨2⟩] 0).FindOrCreateContainer sampleImpl
        ⟨0⟩ ⟨0⟩ ⟨0⟩ ⟨0⟩ ⟨1⟩ sampleSpec ⟨0⟩).calls ∧
    sampleImpl.IsOwnedByTeam ⟨6⟩ = false := by
  decide

/-- C5, amended: whenever `FindOrCreateContainer` calls `Choose`, the Provider
reported no owner, the container spec passed is the caller's, and the
candidate list is not empty, holds only workers returned by a successful
compatibility check of a fleet worker against `workerSpec`, and is the
ownership-tiered set: the check results of the team-owned compatible fleet
workers if there is one, otherwise those of the shared compatible fleet
workers.  The only worker on which `FindOrCreateContainer` is called is the one
`Choose` returned, and when `Choose` returns no error that call is made and its
answer is the result.  When the checks return workers with the ownership flag
of their receiver, the candidates are themselves all team-owned in the first
case and all shared in the second. -/
theorem C5_candidates_given_to_choose (impl : WorkerImpl) (p : pool) (ctx : Context)
    (delegate : ImageFetchingDelegate) (owner : ContainerOwner)
    (metadata : ContainerMetadata) (containerSpec : ContainerSpec)
    (workerSpec : WorkerSpec) (resourceTypes : VersionedResourceTypes)
    (candidates : List Worker) (cs : ContainerSpec)
    (hcall : Call.Choose candidates cs ∈
      (p.FindOrCreateContainer impl ctx delegate owner metadata containerSpec workerSpec
        resourceTypes).calls) :
    (p.provider.FindWorkerForContainerByOwner workerSpec.TeamID owner).2 = (false, none) ∧
    cs = containerSpec ∧
    candidates ≠ [] ∧
    (∀ c ∈ candidates, ∃ w ∈ p.provider.RunningWorkers.1,
      impl.Satisfying w workerSpec = (c, none)) ∧
    ((∃ w ∈ p.provider.RunningWorkers.1,
        (impl.Satisfying w workerSpec).2 = none ∧ impl.IsOwnedByTeam w = true) →
      candidates = teamTier impl workerSpec p.provider.RunningWorkers.1) ∧
    ((¬ ∃ w ∈ p.provider.RunningWorkers.1,
        (impl.Satisfying w workerSpec).2 = none ∧ impl.IsOwnedByTeam w = true) →
      candidates = sharedTier impl workerSpec p.provider.RunningWorkers.1) ∧
    (∀ c ∈ (p.FindOrCreateContainer impl ctx delegate owner metadata containerSpec
        workerSpec resourceTypes).calls,
      c.method = Method.WorkerFindOrCreateContainer →
      c = Call.WorkerFindOrCreateContainer (p.strategy.Choose candidates containerSpec).1
        ctx delegate owner metadata containerSpec workerSpec resourceTypes) ∧
    ((p.strategy.Choose candidates containerSpec).2 = none →
      callsOf Method.WorkerFindOrCreateContainer
          (p.FindOrCreateContainer impl ctx delegate owner metadata containerSpec
            workerSpec resourceTypes).calls =
        [Call.WorkerFindOrCreateContainer (p.strategy.Choose candidates containerSpec).1
          ctx delegate owner metadata containerSpec workerSpec resourceTypes] ∧
      (p.FindOrCreateContainer impl ctx delegate owner metadata containerSpec workerSpec
          resourceTypes).result =
        impl.FindOrCreateContainer (p.strategy.Choose candidates containerSpec).1
          ctx delegate owner metadata containerSpec workerSpec resourceTypes) ∧
    ((∀ v ∈ p.provider.RunningWorkers.1, (impl.Satisfying v workerSpec).2 = none →
        impl.IsOwnedByTeam (impl.Satisfying v workerSpec).1 = impl.IsOwnedByTeam v) →
      ((∃ w ∈ p.provider.RunningWorkers.1,
          (impl.Satisfying w workerSpec).2 = none ∧ impl.IsOwnedByTeam w = true) →
        ∀ c ∈ candidates, impl.IsOwnedByTeam c = true) ∧
      ((¬ ∃ w ∈ p.provider.RunningWorkers.1,
          (impl.Satisfying w workerSpec).2 = none ∧ impl.IsOwnedByTeam w = true) →
        ∀ c ∈ candidates, impl.IsOwnedByTeam c = false)) := by
  obtain ⟨herr, hfound, hall, hcands, hcs⟩ := FindOrCreateContainer_choose_inv impl p ctx
    delegate owner metadata containerSpec workerSpec resourceTypes candidates cs hcall
  obtain ⟨_, hne, htier⟩ := allSatisfying_ok impl p workerSpec hall
  have hcands2 : candidates = preferredTier impl workerSpec p.provider.RunningWorkers.1 := by
    rw [hcands, htier]
  have hnotall : ∀ c : Call, c.method = Method.WorkerFindOrCreateContainer →
      c ∉ (p.allSatisfying impl workerSpec).calls := fun c hm =>
    not_mem_allSatisfying_calls impl p workerSpec c (by rw [hm]; decide)
      (by rw [hm]; decide) (by rw [hm]; decide)
  have hteamiff : (∃ w ∈ p.provider.RunningWorkers.1,
        (impl.Satisfying w workerSpec).2 = none ∧ impl.IsOwnedByTeam w = true) ↔
      teamTier impl workerSpec p.provider.RunningWorkers.1 ≠ [] := by
    rw [teamTier_ne_nil_iff]
    simp [compatible]
  have hteamcase : (∃ w ∈ p.provider.RunningWorkers.1,
        (impl.Satisfying w workerSpec).2 = none ∧ impl.IsOwnedByTeam w = true) →
      candidates = teamTier impl workerSpec p.provider.RunningWorkers.1 := by
    intro h
    rw [hcands2]
    simp [preferredTier, hteamiff.1 h]
  have hsharedcase : (¬ ∃ w ∈ p.provider.RunningWorkers.1,
        (impl.Satisfying w workerSpec).2 = none ∧ impl.IsOwnedByTeam w = true) →
      candidates = sharedTier impl workerSpec p.provider.RunningWorkers.1 := by
    intro h
    have : teamTier impl workerSpec p.provider.RunningWorkers.1 = [] := by
      by_contra hcon
      exact h (hteamiff.2 hcon)
    rw [hcands2]
    simp [preferredTier, this]
  refine ⟨Prod.ext hfound herr, hcs, by rw [hcands2]; exact hne, ?_, hteamcase, hsharedcase,
    ?_, ?_, ?_⟩
  · intro c hc
    rw [hcands2] at hc
    obtain ⟨w, hw, hcomp, hnar⟩ := mem_preferredTier impl workerSpec _ c hc
    refine ⟨w, hw, Prod.ext hnar ?_⟩
    simpa [compatible] using hcomp
  · intro c hc hm
    rw [hcands]
    cases hch : (p.strategy.Choose (p.allSatisfying impl workerSpec).result.1
        containerSpec).2 with
    | some e =>
      rw [FindOrCreateContainer_choose_error impl p ctx delegate owner metadata
        containerSpec workerSpec resourceTypes e herr hfound hall hch] at hc
      rcases List.mem_cons.1 hc with h | h
      · rw [h] at hm; exact absurd hm (by simp [Call.method])
      · rcases List.mem_append.1 h with h | h
        · exact absurd h (hnotall c hm)
        · rw [List.mem_singleton.1 h] at hm; exact absurd hm (by simp [Call.method])
    | none =>
      rw [FindOrCreateContainer_chosen impl p ctx delegate owner metadata
        containerSpec workerSpec resourceTypes herr hfound hall hch] at hc
      rcases List.mem_cons.1 hc with h | h
      · rw [h] at hm; exact absurd hm (by simp [Call.method])
      · rcases List.mem_append.1 h with h | h
        · exact absurd h (hnotall c hm)
        · simp only [List.mem_cons, List.mem_singleton, List.not_mem_nil, or_false] at h
          rcases h with h | h
          · rw [h] at hm; exact absurd hm (by simp [Call.method])
          · exact h
  · intro hch
    rw [hcands] at hch ⊢
    rw [FindOrCreateContainer_chosen impl p ctx delegate owner metadata
      containerSpec workerSpec resourceTypes herr hfound hall hch]
    refine ⟨?_, rfl⟩
    rw [callsOf_cons, callsOf_append, callsOf_allSatisfying impl p workerSpec _ (by decide)
      (by decide)]
    simp [callsOf, Call.method]
  · intro hkeep
    constructor
    · intro h c hc
      rw [hteamcase h] at hc
      exact owned_of_mem_teamTier impl workerSpec _ hkeep c hc
    · intro h c hc
      rw [hsharedcase h] at hc
      exact shared_of_mem_sharedTier impl workerSpec _ hkeep c hc

/-- C5, amended, on the fleet of the incompatible worker 4, the shared workers
2 and 6 and the team-owned worker 3: `Choose` is given worker 3 alone, which is
team-owned, and the container is created on it. -/
theorem C5_candidates_given_to_choose_witness :
    Call.Choose [⟨3⟩] ⟨1⟩ ∈
      ((samplePool [⟨4⟩, ⟨2⟩, ⟨3⟩, ⟨6⟩] 0).FindOrCreateContainer sampleImpl
        ⟨0⟩ ⟨0⟩ ⟨0⟩ ⟨0⟩ ⟨1⟩ sampleSpec ⟨0⟩).calls ∧
    [(⟨3⟩ : Worker)] = teamTier sampleImpl sampleSpec [⟨4⟩, ⟨2⟩, ⟨3⟩, ⟨6⟩] ∧
    ((samplePool [⟨4⟩, ⟨2⟩, ⟨3⟩, ⟨6⟩] 0).FindOrCreateContainer sampleImpl
        ⟨0⟩ ⟨0⟩ ⟨0⟩ ⟨0⟩ ⟨1⟩ sampleSpec ⟨0⟩).result =
      sampleImpl.FindOrCreateContainer ⟨3⟩ ⟨0⟩ ⟨0⟩ ⟨0⟩ ⟨0⟩ ⟨1⟩ sampleSpec ⟨0⟩ ∧
    (∀ c ∈ [(⟨3⟩ : Worker)], sampleImpl.IsOwnedByTeam c = true) :=
  ⟨by decide,
    (C5_candidates_given_to_choose sampleImpl (samplePool [⟨4⟩, ⟨2⟩, ⟨3⟩, ⟨6⟩] 0)
      ⟨0⟩ ⟨0⟩ ⟨0⟩ ⟨0⟩ ⟨1⟩ sampleSpec ⟨0⟩ [⟨3⟩] ⟨1⟩ (by decide)).2.2.2.2.1
      ⟨⟨3⟩, by decide, by decide, by decide⟩,
    ((C5_candidates_given_to_choose sampleImpl (samplePool [⟨4⟩, ⟨2⟩, ⟨3⟩, ⟨6⟩] 0)
      ⟨0⟩ ⟨0⟩ ⟨0⟩ ⟨0⟩ ⟨1⟩ sampleSpec ⟨0⟩ [⟨3⟩] ⟨1⟩ (by decide)).2.2.2.2.2.2.2.1
      (by decide)).2,
    ((C5_candidates_given_to_choose sampleImpl (samplePool [⟨4⟩, ⟨2⟩, ⟨3⟩, ⟨6⟩] 0)
      ⟨0⟩ ⟨0⟩ ⟨0⟩ ⟨0⟩ ⟨1⟩ sampleSpec ⟨0⟩ [⟨3⟩] ⟨1⟩ (by decide)).2.2.2.2.2.2.2.2
      (by decide)).1 ⟨⟨3⟩, by decide, by decide, by decide⟩⟩

/-! ## Facts about pool.LookupVolume -/

/-- The loop of `LookupVolume` stops at the first worker that reports the
handle as found and returns that worker's answer. -/
theorem lookupVolumeLoop_first (impl : WorkerImpl) (handle : String) (w : Worker)
    (post : List Worker) (hw : (impl.LookupVolume w handle).2.1 = true) :
    ∀ pre : List Worker, (∀ x ∈ pre, (impl.LookupVolume x handle).2.1 = false) →
      lookupVolumeLoop impl handle (pre ++ w :: post) =
        ⟨impl.LookupVolume w handle,
          (pre ++ [w]).map (fun x => Call.WorkerLookupVolume x handle)⟩ := by
  intro pre
  induction pre with
  | nil =>
    intro _
    simp only [List.nil_append, lookupVolumeLoop, hw, if_true, List.map_cons, List.map_nil]
    rw [← hw]
  | cons x rest ih =>
    intro hpre
    have hx := hpre x (List.mem_cons_self _ _)
    have hrest := ih (fun y hy => hpre y (List.mem_cons_of_mem _ hy))
    simp only [List.cons_append, lookupVolumeLoop, hx, Bool.false_eq_true, if_false,
      List.append_eq, hrest, List.map_cons]

/-- The loop of `LookupVolume` over workers none of which reports the handle as
found asks every one of them and returns not found without error. -/
theorem lookupVolumeLoop_none (impl : WorkerImpl) (handle : String) :
    ∀ workers : List Worker, (∀ x ∈ workers, (impl.LookupVolume x handle).2.1 = false) →
      lookupVolumeLoop impl handle workers =
        ⟨(none, false, none), workers.map (fun x => Call.WorkerLookupVolume x handle)⟩ := by
  intro workers
  induction workers with
  | nil => intro _; rfl
  | cons x rest ih =>
    intro h
    have hx := h x (List.mem_cons_self _ _)
    have hrest := ih (fun y hy => h y (List.mem_cons_of_mem _ hy))
    simp only [lookupVolumeLoop, hx, Bool.false_eq_true, if_false, hrest, List.map_cons]

/-- With candidates, `LookupVolume` runs its loop over them. -/
theorem LookupVolume_of_tier (impl : WorkerImpl) (p : pool) (handle : String)
    (hprov : p.provider.RunningWorkers.2 = none)
    (ht : preferredTier impl WorkerSpec.zero p.provider.RunningWorkers.1 ≠ []) :
    p.LookupVolume impl handle =
      ⟨(lookupVolumeLoop impl handle
          (preferredTier impl WorkerSpec.zero p.provider.RunningWorkers.1)).result,
        (Call.RunningWorkers :: scanCalls impl WorkerSpec.zero p.provider.RunningWorkers.1) ++
          (lookupVolumeLoop impl handle
            (preferredTier impl WorkerSpec.zero p.provider.RunningWorkers.1)).calls⟩ := by
  unfold pool.LookupVolume
  rw [allSatisfying_of_tier impl p WorkerSpec.zero hprov ht]

/-- With a failing `allSatisfying`, `LookupVolume` returns its error. -/
theorem LookupVolume_of_error (impl : WorkerImpl) (p : pool) (handle : String) (e : GoError)
    (h : (p.allSatisfying impl WorkerSpec.zero).result.2 = some e) :
    p.LookupVolume impl handle =
      ⟨(none, false, some e), (p.allSatisfying impl WorkerSpec.zero).calls⟩ := by
  unfold pool.LookupVolume
  simp [h]

/-! ## C6: which volume LookupVolume returns -/

/-- C6, as stated, fails: in the fleet of the shared worker 2 and the
team-owned worker 1, both compatible, worker 2 reports the handle with volume
20, and `LookupVolume` returns not found: only worker 1 is asked. -/
theorem C6_counterexample :
    (samplePool [⟨2⟩, ⟨1⟩] 0).provider.RunningWorkers = ([⟨2⟩, ⟨1⟩], none) ∧
    sampleImpl.Satisfying ⟨2⟩ WorkerSpec.zero = (⟨2⟩, none) ∧
    sampleImpl.LookupVolume ⟨2⟩ "h" = (some ⟨20⟩, true, none) ∧
    (samplePool [⟨2⟩, ⟨1⟩] 0).LookupVolume sampleImpl "h" =
      ⟨(none, false, none),
        [Call.RunningWorkers,
          Call.WorkerSatisfying ⟨2⟩ WorkerSpec.zero, Call.WorkerIsOwnedByTeam ⟨2⟩,
          Call.WorkerSatisfying ⟨1⟩ WorkerSpec.zero, Call.WorkerIsOwnedByTeam ⟨1⟩,
          Call.WorkerLookupVolume ⟨1⟩ "h"]⟩ := by
  decide

/-- C6, amended: `LookupVolume` scans, in Provider order, the ownership-tiered
list for the zero-value `WorkerSpec`: the workers returned by the compatibility
checks of the team-owned compatible fleet workers if there is one, otherwise
those returned by the checks of the shared compatible fleet workers.  When the
members of that list before the first one that reports the handle as found
answer not found with a `nil` error, `LookupVolume` returns the answer of that
member, its volume, `found = true` and its error, and it calls `LookupVolume`
on exactly the members up to and including that one.  Every worker asked was
returned by the check of a compatible fleet worker; and when the checks return
workers with the ownership flag of their receiver and a team-owned compatible
fleet worker exists, every worker asked is team-owned, so no shared worker
is. -/
theorem C6_lookupVolume_first_of_tier (impl : WorkerImpl) (p : pool) (handle : String)
    (pre post : List Worker) (w : Worker)
    (hprov : p.provider.RunningWorkers.2 = none)
    (htier : preferredTier impl WorkerSpec.zero p.provider.RunningWorkers.1 =
      pre ++ w :: post)
    (hpre : ∀ x ∈ pre, (impl.LookupVolume x handle).2 = (false, none))
    (hw : (impl.LookupVolume w handle).2.1 = true) :
    (p.LookupVolume impl handle).result = impl.LookupVolume w handle ∧
    (p.LookupVolume impl handle).result.2.1 = true ∧
    callsOf Method.WorkerLookupVolume (p.LookupVolume impl handle).calls =
      (pre ++ [w]).map (fun x => Call.WorkerLookupVolume x handle) ∧
    (∀ x ∈ pre ++ [w], ∃ v ∈ p.provider.RunningWorkers.1,
      impl.Satisfying v WorkerSpec.zero = (x, none)) ∧
    ((∀ v ∈ p.provider.RunningWorkers.1, (impl.Satisfying v WorkerSpec.zero).2 = none →
        impl.IsOwnedByTeam (impl.Satisfying v WorkerSpec.zero).1 = impl.IsOwnedByTeam v) →
      (∃ v ∈ p.provider.RunningWorkers.1,
        (impl.Satisfying v WorkerSpec.zero).2 = none ∧ impl.IsOwnedByTeam v = true) →
      ∀ x ∈ pre ++ [w], impl.IsOwnedByTeam x = true) := by
  have hne : preferredTier impl WorkerSpec.zero p.provider.RunningWorkers.1 ≠ [] := by
    rw [htier]; simp
  have hpre1 : ∀ x ∈ pre, (impl.LookupVolume x handle).2.1 = false := by
    intro x hx; rw [hpre x hx]
  have hasked : ∀ x ∈ pre ++ [w],
      x ∈ preferredTier impl WorkerSpec.zero p.provider.RunningWorkers.1 := by
    intro x hx
    rw [htier]
    rcases List.mem_append.1 hx with h | h
    · exact List.mem_append_left _ h
    · exact List.mem_append_right _ (by
        rw [List.mem_singleton.1 h]; exact List.mem_cons_self _ _)
  refine ⟨?_, ?_, ?_, ?_, ?_⟩
  · rw [LookupVolume_of_tier impl p handle hprov hne, htier,
      lookupVolumeLoop_first impl handle w post hw pre hpre1]
  · rw [LookupVolume_of_tier impl p handle hprov hne, htier,
      lookupVolumeLoop_first impl handle w post hw pre hpre1]
    exact hw
  · rw [LookupVolume_of_tier impl p handle hprov hne, htier,
      lookupVolumeLoop_first impl handle w post hw pre hpre1]
    rw [callsOf_append, callsOf_cons,
      callsOf_scanCalls impl WorkerSpec.zero _ _ (by decide) (by decide)]
    simp [callsOf, Call.method, List.filter_eq_self]
  · intro x hx
    obtain ⟨v, hv, hc, hn⟩ := mem_preferredTier impl WorkerSpec.zero _ x (hasked x hx)
    exact ⟨v, hv, Prod.ext hn (by simpa [compatible] using hc)⟩
  · intro hkeep hteam x hx
    have hteam2 : ∃ v ∈ p.provider.RunningWorkers.1,
        compatible impl WorkerSpec.zero v = true ∧ impl.IsOwnedByTeam v = true := by
      obtain ⟨v, hv, hc, ho⟩ := hteam
      exact ⟨v, hv, by simp [compatible, hc], ho⟩
    have hx2 := hasked x hx
    rw [(preferredTier_eq_teamTier impl WorkerSpec.zero _ hteam2).1] at hx2
    exact owned_of_mem_teamTier impl WorkerSpec.zero _ hkeep x hx2

/-- C6, amended, on the fleet of the team-owned workers 1 and 3 and the shared
worker 2: worker 1 reports nothing, worker 3 reports volume 30, worker 2 is not
asked. -/
theorem C6_lookupVolume_first_of_tier_witness :
    (preferredTier sampleImpl WorkerSpec.zero
        (samplePool [⟨2⟩, ⟨1⟩, ⟨3⟩] 0).provider.RunningWorkers.1 = [⟨1⟩] ++ ⟨3⟩ :: [] ∧
      (sampleImpl.LookupVolume ⟨1⟩ "h").2 = (false, none) ∧
      (sampleImpl.LookupVolume ⟨3⟩ "h").2.1 = true) ∧
    ((samplePool [⟨2⟩, ⟨1⟩, ⟨3⟩] 0).LookupVolume sampleImpl "h").result =
        (some ⟨30⟩, true, none) ∧
    callsOf Method.WorkerLookupVolume
        ((samplePool [⟨2⟩, ⟨1⟩, ⟨3⟩] 0).LookupVolume sampleImpl "h").calls =
      [Call.WorkerLookupVolume ⟨1⟩ "h", Call.WorkerLookupVolume ⟨3⟩ "h"] :=
  ⟨by decide,
    (C6_lookupVolume_first_of_tier sampleImpl (samplePool [⟨2⟩, ⟨1⟩, ⟨3⟩] 0) "h" [⟨1⟩] []
      ⟨3⟩ rfl (by decide) (by decide) (by decide)).1,
    (C6_lookupVolume_first_of_tier sampleImpl (samplePool [⟨2⟩, ⟨1⟩, ⟨3⟩] 0) "h" [⟨1⟩] []
      ⟨3⟩ rfl (by decide) (by decide) (by decide)).2.2.1⟩

/-! ## C7: LookupVolume when no worker reports the handle -/

/-- C7, as stated, fails twice.  On the empty fleet no compatible worker
reports the handle, and `LookupVolume` returns the error `ErrNoWorkers`, not
`nil`.  And in the fleet made of worker 5 under `relayImpl`, the one compatible
fleet worker reports nothing, yet `LookupVolume` returns volume 20 as found:
it asks worker 2, the worker the check of worker 5 returned. -/
theorem C7_counterexample :
    ((samplePool [] 0).provider.RunningWorkers = ([], none) ∧
      ((samplePool [] 0).LookupVolume sampleImpl "h").result =
        (none, false, some GoError.ErrNoWorkers)) ∧
    ((samplePool [⟨5⟩] 0).provider.RunningWorkers = ([⟨5⟩], none) ∧
      (relayImpl.Satisfying ⟨5⟩ WorkerSpec.zero).2 = none ∧
      relayImpl.LookupVolume ⟨5⟩ "h" = (none, false, none) ∧
      ((samplePool [⟨5⟩] 0).LookupVolume relayImpl "h").result =
        (some ⟨20⟩, true, none)) := by
  decide

/-- C7, amended: when the Provider returns without error a fleet with at least
one worker compatible with the zero-value `WorkerSpec`, and every worker
returned by the compatibility check of a compatible fleet worker answers
`LookupVolume` for the handle with `found = false` and a `nil` error,
`LookupVolume` returns `(nil, false, nil)`.  When the Provider fails, the fleet
is empty or no fleet worker is compatible, it returns `(nil, false, err)` with
the Provider's error, `ErrNoWorkers` or `ErrNoGlobalWorkers`. -/
theorem C7_lookupVolume_not_found (impl : WorkerImpl) (p : pool) (handle : String) :
    (p.provider.RunningWorkers.2 = none →
      (∃ w ∈ p.provider.RunningWorkers.1, (impl.Satisfying w WorkerSpec.zero).2 = none) →
      (∀ w ∈ p.provider.RunningWorkers.1, (impl.Satisfying w WorkerSpec.zero).2 = none →
        (impl.LookupVolume (impl.Satisfying w WorkerSpec.zero).1 handle).2 =
          (false, none)) →
      (p.LookupVolume impl handle).result = (none, false, none)) ∧
    (∀ e, p.provider.RunningWorkers.2 = some e →
      (p.LookupVolume impl handle).result = (none, false, some e)) ∧
    (p.provider.RunningWorkers = ([], none) →
      (p.LookupVolume impl handle).result = (none, false, some GoError.ErrNoWorkers)) ∧
    (p.provider.RunningWorkers.2 = none → p.provider.RunningWorkers.1 ≠ [] →
      (∀ w ∈ p.provider.RunningWorkers.1, (impl.Satisfying w WorkerSpec.zero).2 ≠ none) →
      (p.LookupVolume impl handle).result =
        (none, false, some GoError.ErrNoGlobalWorkers)) := by
  refine ⟨?_, ?_, ?_, ?_⟩
  · intro hprov hsome hnone
    have hne : preferredTier impl WorkerSpec.zero p.provider.RunningWorkers.1 ≠ [] := by
      rw [preferredTier_ne_nil_iff]
      obtain ⟨w, hw, hc⟩ := hsome
      exact ⟨w, hw, by simp [compatible, hc]⟩
    rw [LookupVolume_of_tier impl p handle hprov hne, lookupVolumeLoop_none]
    intro x hx
    obtain ⟨w, hw, hc, hn⟩ := mem_preferredTier impl WorkerSpec.zero _ x hx
    have hc2 : (impl.Satisfying w WorkerSpec.zero).2 = none := by
      simpa [compatible] using hc
    rw [← hn, narrowed, hnone w hw hc2]
  · intro e he
    rw [LookupVolume_of_error impl p handle e
      (by rw [allSatisfying_of_provider_error impl p _ e he])]
  · intro hempty
    rw [LookupVolume_of_error impl p handle GoError.ErrNoWorkers
      (by rw [allSatisfying_of_empty impl p _ hempty])]
  · intro hprov hne hnone
    have hincomp : ∀ w ∈ p.provider.RunningWorkers.1,
        compatible impl WorkerSpec.zero w = false := by
      intro w hw
      cases hs : (impl.Satisfying w WorkerSpec.zero).2 with
      | none => exact absurd hs (hnone w hw)
      | some e => simp [compatible, hs]
    rw [LookupVolume_of_error impl p handle GoError.ErrNoGlobalWorkers
      (by rw [allSatisfying_of_no_tier impl p _ hprov hne
        (preferredTier_eq_nil impl _ _ hincomp)]; rfl)]

/-- C7, amended, on the fleet of the shared workers 6 and 4, of which only
worker 6 is compatible; its check returns worker 6, which answers not found
without error. -/
theorem C7_lookupVolume_not_found_witness :
    ((samplePool [⟨6⟩, ⟨4⟩] 0).provider.RunningWorkers = ([⟨6⟩, ⟨4⟩], none) ∧
      sampleImpl.Satisfying ⟨6⟩ WorkerSpec.zero = (⟨6⟩, none) ∧
      (sampleImpl.Satisfying ⟨4⟩ WorkerSpec.zero).2 ≠ none ∧
      sampleImpl.LookupVolume ⟨6⟩ "h" = (none, false, none)) ∧
    ((samplePool [⟨6⟩, ⟨4⟩] 0).LookupVolume sampleImpl "h").result = (none, false, none) :=
  ⟨by decide,
    (C7_lookupVolume_not_found sampleImpl (samplePool [⟨6⟩, ⟨4⟩] 0) "h").1 rfl
      ⟨⟨6⟩, by decide, by decide⟩ (by decide)⟩

/-! ## C8: errors of the workers asked by LookupVolume -/

/-- C8 fails on the code: in the fleet made of the shared compatible worker 7,
`LookupVolume` asks worker 7, which answers not found with an error, and
returns `(nil, false, nil)`: the error is lost. -/
theorem C8_lookupVolume_drops_worker_error :
    (samplePool [⟨7⟩] 0).provider.RunningWorkers = ([⟨7⟩], none) ∧
    sampleImpl.Satisfying ⟨7⟩ WorkerSpec.zero = (⟨7⟩, none) ∧
    sampleImpl.LookupVolume ⟨7⟩ "h" =
      (none, false, some (GoError.collaborator "unreachable")) ∧
    (samplePool [⟨7⟩] 0).LookupVolume sampleImpl "h" =
      ⟨(none, false, none),
        [Call.RunningWorkers,
          Call.WorkerSatisfying ⟨7⟩ WorkerSpec.zero, Call.WorkerIsOwnedByTeam ⟨7⟩,
          Call.WorkerLookupVolume ⟨7⟩ "h"]⟩ := by
  decide

/-! ## C9: errors in FindOrCreateContainer -/

/-- No collaborator method other than the two used by the compatibility scan
is called twice by `FindOrCreateContainer`. -/
theorem FindOrCreateContainer_no_step_twice (impl : WorkerImpl) (p : pool) (ctx : Context)
    (delegate : ImageFetchingDelegate) (owner : ContainerOwner)
    (metadata : ContainerMetadata) (containerSpec : ContainerSpec)
    (workerSpec : WorkerSpec) (resourceTypes : VersionedResourceTypes) (m : Method)
    (h1 : m ≠ Method.WorkerSatisfying) (h2 : m ≠ Method.WorkerIsOwnedByTeam) :
    (callsOf m (p.FindOrCreateContainer impl ctx delegate owner metadata containerSpec
      workerSpec resourceTypes).calls).length ≤ 1 := by
  have hall := callsOf_allSatisfying impl p workerSpec m h1 h2
  cases herr : (p.provider.FindWorkerForContainerByOwner workerSpec.TeamID owner).2.2 with
  | some e =>
    rw [FindOrCreateContainer_lookup_error impl p ctx delegate owner metadata containerSpec
      workerSpec resourceTypes e herr]
    cases m <;> simp [callsOf, Call.method]
  | none =>
    cases hfound : (p.provider.FindWorkerForContainerByOwner workerSpec.TeamID owner).2.1 with
    | true =>
      rw [FindOrCreateContainer_found impl p ctx delegate owner metadata containerSpec
        workerSpec resourceTypes herr hfound]
      cases m <;> simp [callsOf, Call.method]
    | false =>
      cases hres : (p.allSatisfying impl workerSpec).result.2 with
      | some e =>
        rw [FindOrCreateContainer_no_candidates impl p ctx delegate owner metadata
          containerSpec workerSpec resourceTypes e herr hfound hres]
        simp only [callsOf_cons, hall]
        cases m <;> simp [Call.method]
      | none =>
        cases hch : (p.strategy.Choose (p.allSatisfying impl workerSpec).result.1
            containerSpec).2 with
        | some e =>
          rw [FindOrCreateContainer_choose_error impl p ctx delegate owner metadata
            containerSpec workerSpec resourceTypes e herr hfound hres hch]
          simp only [callsOf_cons, callsOf_append, hall, callsOf_nil]
          cases m <;> simp [Call.method]
        | none =>
          rw [FindOrCreateContainer_chosen impl p ctx delegate owner metadata
            containerSpec workerSpec resourceTypes herr hfound hres hch]
          simp only [callsOf_cons, callsOf_append, hall, callsOf_nil]
          cases m <;> simp [Call.method]

/-- C9: `FindOrCreateContainer` returns the first error unchanged, with a
`nil` container and without calling `FindOrCreateContainer` on any worker: the
error of the owner lookup (nothing else is then called); else, with no owner
found, the error of the compatible-set computation, which is the Provider's
error, `ErrNoWorkers` for an empty fleet, and `ErrNoGlobalWorkers` or
`NoCompatibleWorkersError` for a fleet without compatible worker (`Choose` is
then not called); else the error of `Choose`.  Otherwise the result is what the
worker found or chosen returns, its error included.  No method other than the
per-worker compatibility checks is called twice. -/
theorem C9_findOrCreateContainer_errors (impl : WorkerImpl) (p : pool) (ctx : Context)
    (delegate : ImageFetchingDelegate) (owner : ContainerOwner)
    (metadata : ContainerMetadata) (containerSpec : ContainerSpec)
    (workerSpec : WorkerSpec) (resourceTypes : VersionedResourceTypes) :
    (∀ e, (p.provider.FindWorkerForContainerByOwner workerSpec.TeamID owner).2.2 = some e →
      p.FindOrCreateContainer impl ctx delegate owner metadata containerSpec workerSpec
          resourceTypes =
        ⟨(none, some e), [Call.FindWorkerForContainerByOwner workerSpec.TeamID owner]⟩) ∧
    ((p.provider.FindWorkerForContainerByOwner workerSpec.TeamID owner).2 = (false, none) →
      (∀ e, (p.allSatisfying impl workerSpec).result.2 = some e →
        (p.FindOrCreateContainer impl ctx delegate owner metadata containerSpec workerSpec
            resourceTypes).result = (none, some e) ∧
        callsOf Method.Choose
          (p.FindOrCreateContainer impl ctx delegate owner metadata containerSpec
            workerSpec resourceTypes).calls = [] ∧
        callsOf Method.WorkerFindOrCreateContainer
          (p.FindOrCreateContainer impl ctx delegate owner metadata containerSpec
            workerSpec resourceTypes).calls = []) ∧
      (∀ e, p.provider.RunningWorkers.2 = some e →
        (p.FindOrCreateContainer impl ctx delegate owner metadata containerSpec workerSpec
            resourceTypes).result = (none, some e)) ∧
      (p.provider.RunningWorkers = ([], none) →
        (p.FindOrCreateContainer impl ctx delegate owner metadata containerSpec workerSpec
            resourceTypes).result = (none, some GoError.ErrNoWorkers)) ∧
      (p.provider.RunningWorkers.2 = none → p.provider.RunningWorkers.1 ≠ [] →
        (∀ w ∈ p.provider.RunningWorkers.1, (impl.Satisfying w workerSpec).2 ≠ none) →
        (p.FindOrCreateContainer impl ctx delegate owner metadata containerSpec workerSpec
            resourceTypes).result =
          (none, some (if workerSpec.TeamID = 0 then GoError.ErrNoGlobalWorkers
                       else GoError.NoCompatibleWorkersError workerSpec))) ∧
      ((p.allSatisfying impl workerSpec).result.2 = none →
        (∀ e, (p.strategy.Choose (p.allSatisfying impl workerSpec).result.1
            containerSpec).2 = some e →
          (p.FindOrCreateContainer impl ctx delegate owner metadata containerSpec
              workerSpec resourceTypes).result = (none, some e) ∧
          callsOf Method.WorkerFindOrCreateContainer
            (p.FindOrCreateContainer impl ctx delegate owner metadata containerSpec
              workerSpec resourceTypes).calls = []) ∧
        ((p.strategy.Choose (p.allSatisfying impl workerSpec).result.1
            containerSpec).2 = none →
          (p.FindOrCreateContainer impl ctx delegate owner metadata containerSpec
              workerSpec resourceTypes).result =
            impl.FindOrCreateContainer
              (p.strategy.Choose (p.allSatisfying impl workerSpec).result.1
                containerSpec).1
              ctx delegate owner metadata containerSpec workerSpec resourceTypes))) ∧
    ((p.provider.FindWorkerForContainerByOwner workerSpec.TeamID owner).2 = (true, none) →
      (p.FindOrCreateContainer impl ctx delegate owner metadata containerSpec workerSpec
          resourceTypes).result =
        impl.FindOrCreateContainer
          (p.provider.FindWorkerForContainerByOwner workerSpec.TeamID owner).1
          ctx delegate owner metadata containerSpec workerSpec resourceTypes) ∧
    (∀ m, m ≠ Method.WorkerSatisfying → m ≠ Method.WorkerIsOwnedByTeam →
      (callsOf m (p.FindOrCreateContainer impl ctx delegate owner metadata containerSpec
        workerSpec resourceTypes).calls).length ≤ 1) := by
  refine ⟨?_, ?_, ?_, ?_⟩
  · intro e he
    exact FindOrCreateContainer_lookup_error impl p ctx delegate owner metadata containerSpec
      workerSpec resourceTypes e he
  · intro hlookup
    have herr : (p.provider.FindWorkerForContainerByOwner workerSpec.TeamID owner).2.2 =
        none := by rw [hlookup]
    have hfound : (p.provider.FindWorkerForContainerByOwner workerSpec.TeamID owner).2.1 =
        false := by rw [hlookup]
    have hgen : ∀ e, (p.allSatisfying impl workerSpec).result.2 = some e →
        (p.FindOrCreateContainer impl ctx delegate owner metadata containerSpec workerSpec
            resourceTypes).result = (none, some e) ∧
        callsOf Method.Choose
          (p.FindOrCreateContainer impl ctx delegate owner metadata containerSpec
            workerSpec resourceTypes).calls = [] ∧
        callsOf Method.WorkerFindOrCreateContainer
          (p.FindOrCreateContainer impl ctx delegate owner metadata containerSpec
            workerSpec resourceTypes).calls = [] := by
      intro e he
      rw [FindOrCreateContainer_no_candidates impl p ctx delegate owner metadata
        containerSpec workerSpec resourceTypes e herr hfound he]
      refine ⟨rfl, ?_, ?_⟩
      · rw [callsOf_cons, callsOf_allSatisfying impl p workerSpec _ (by decide) (by decide)]
        simp [Call.method]
      · rw [callsOf_cons, callsOf_allSatisfying impl p workerSpec _ (by decide) (by decide)]
        simp [Call.method]
    refine ⟨hgen, ?_, ?_, ?_, ?_⟩
    · intro e he
      exact (hgen e (by rw [allSatisfying_of_provider_error impl p _ e he])).1
    · intro hempty
      exact (hgen _ (by rw [allSatisfying_of_empty impl p _ hempty])).1
    · intro hprov hne hnone
      have hincomp : ∀ w ∈ p.provider.RunningWorkers.1,
          compatible impl workerSpec w = false := by
        intro w hw
        cases hs : (impl.Satisfying w workerSpec).2 with
        | none => exact absurd hs (hnone w hw)
        | some e => simp [compatible, hs]
      exact (hgen _ (by rw [allSatisfying_of_no_tier impl p _ hprov hne
        (preferredTier_eq_nil impl _ _ hincomp)])).1
    · intro hres
      constructor
      · intro e hch
        rw [FindOrCreateContainer_choose_error impl p ctx delegate owner metadata
          containerSpec workerSpec resourceTypes e herr hfound hres hch]
        refine ⟨rfl, ?_⟩
        rw [callsOf_cons, callsOf_append,
          callsOf_allSatisfying impl p workerSpec _ (by decide) (by decide)]
        simp [callsOf, Call.method]
      · intro hch
        rw [FindOrCreateContainer_chosen impl p ctx delegate owner metadata
          containerSpec workerSpec resourceTypes herr hfound hres hch]
  · intro hlookup
    rw [FindOrCreateContainer_found impl p ctx delegate owner metadata containerSpec
      workerSpec resourceTypes (by rw [hlookup]) (by rw [hlookup])]
  · intro m h1 h2
    exact FindOrCreateContainer_no_step_twice impl p ctx delegate owner metadata
      containerSpec workerSpec resourceTypes m h1 h2

/-- C9 on scripted pools: a failing owner lookup, a failing Provider and a
failing strategy each have their error returned unchanged. -/
theorem C9_findOrCreateContainer_errors_witness :
    (scriptedPool ([⟨2⟩], none) (⟨0⟩, false, some (GoError.collaborator "db")) none
        0).FindOrCreateContainer sampleImpl ⟨0⟩ ⟨0⟩ ⟨0⟩ ⟨0⟩ ⟨0⟩ sampleSpec ⟨0⟩ =
      ⟨(none, some (GoError.collaborator "db")),
        [Call.FindWorkerForContainerByOwner 5 ⟨0⟩]⟩ ∧
    ((scriptedPool ([⟨2⟩], some (GoError.collaborator "down")) (⟨0⟩, false, none) none
        0).FindOrCreateContainer sampleImpl ⟨0⟩ ⟨0⟩ ⟨0⟩ ⟨0⟩ ⟨0⟩ sampleSpec ⟨0⟩).result =
      (none, some (GoError.collaborator "down")) ∧
    ((scriptedPool ([⟨2⟩], none) (⟨0⟩, false, none) (some (GoError.collaborator "full"))
        0).FindOrCreateContainer sampleImpl ⟨0⟩ ⟨0⟩ ⟨0⟩ ⟨0⟩ ⟨0⟩ sampleSpec ⟨0⟩).result =
      (none, some (GoError.collaborator "full")) :=
  ⟨(C9_findOrCreateContainer_errors sampleImpl
      (scriptedPool ([⟨2⟩], none) (⟨0⟩, false, some (GoError.collaborator "db")) none 0)
      ⟨0⟩ ⟨0⟩ ⟨0⟩ ⟨0⟩ ⟨0⟩ sampleSpec ⟨0⟩).1 _ rfl,
    ((C9_findOrCreateContainer_errors sampleImpl
      (scriptedPool ([⟨2⟩], some (GoError.collaborator "down")) (⟨0⟩, false, none) none 0)
      ⟨0⟩ ⟨0⟩ ⟨0⟩ ⟨0⟩ ⟨0⟩ sampleSpec ⟨0⟩).2.1 rfl).2.1 _ rfl,
    ((((C9_findOrCreateContainer_errors sampleImpl
      (scriptedPool ([⟨2⟩], none) (⟨0⟩, false, none) (some (GoError.collaborator "full")) 0)
      ⟨0⟩ ⟨0⟩ ⟨0⟩ ⟨0⟩ ⟨0⟩ sampleSpec ⟨0⟩).2.1 rfl).2.2.2.2 (by decide)).1 _ rfl).1⟩

/-! ## C10: when Satisfying succeeds -/

/-- The two ways `Satisfying` ends: with the error of `allSatisfying`, or with
a member of the preferred tier. -/
theorem Satisfying_cases (impl : WorkerImpl) (p : pool) (spec : WorkerSpec) :
    (∃ e, (p.allSatisfying impl spec).result.2 = some e ∧
      (p.Satisfying impl spec).result = Outcome.returned (none, some e)) ∨
    (p.provider.RunningWorkers.2 = none ∧
      ∃ r ∈ preferredTier impl spec p.provider.RunningWorkers.1,
        (p.Satisfying impl spec).result = Outcome.returned (some r, none)) := by
  cases hres : (p.allSatisfying impl spec).result.2 with
  | some e =>
    left
    exact ⟨e, rfl, by rw [Satisfying_of_error impl p spec e hres]⟩
  | none =>
    right
    obtain ⟨hprov, hne, htier⟩ := allSatisfying_ok impl p spec hres
    obtain ⟨r, hget, hsat⟩ := Satisfying_of_candidates impl p spec
      (preferredTier impl spec p.provider.RunningWorkers.1) (Prod.ext htier hres) hne
    exact ⟨hprov, r, List.get?_mem hget, by rw [hsat]⟩

/-- C10: a worker returned by `Satisfying` is the worker that the
compatibility check of some fleet worker against the given spec returned
without error; and `Satisfying` succeeds exactly when the Provider call
succeeds and the check of at least one fleet worker does.  It never panics and
never returns a `nil` worker with a `nil` error. -/
theorem C10_satisfying_succeeds_iff (impl : WorkerImpl) (p : pool) (spec : WorkerSpec) :
    (∀ r, (p.Satisfying impl spec).result = Outcome.returned (some r, none) →
      ∃ w ∈ p.provider.RunningWorkers.1, impl.Satisfying w spec = (r, none)) ∧
    ((∃ r, (p.Satisfying impl spec).result = Outcome.returned (some r, none)) ↔
      (p.provider.RunningWorkers.2 = none ∧
        ∃ w ∈ p.provider.RunningWorkers.1, (impl.Satisfying w spec).2 = none)) ∧
    (p.Satisfying impl spec).result ≠ Outcome.panicked ∧
    (p.Satisfying impl spec).result ≠ Outcome.returned (none, none) := by
  have hcompat : ∀ w, compatible impl spec w = true ↔ (impl.Satisfying w spec).2 = none := by
    intro w; simp [compatible]
  rcases Satisfying_cases impl p spec with ⟨e, he, hres⟩ | ⟨hprov, r, hr, hres⟩
  · have hfail : ¬ (p.provider.RunningWorkers.2 = none ∧
        ∃ w ∈ p.provider.RunningWorkers.1, (impl.Satisfying w spec).2 = none) := by
      rintro ⟨hprov, w, hw, hc⟩
      have hne := (preferredTier_ne_nil_iff impl spec _).2 ⟨w, hw, (hcompat w).2 hc⟩
      rw [allSatisfying_of_tier impl p spec hprov hne] at he
      simp at he
    rw [hres]
    refine ⟨fun r h => by simp at h, ⟨fun ⟨r, h⟩ => by simp at h, fun h => absurd h hfail⟩,
      by simp, by simp⟩
  · obtain ⟨w, hw, hc, hn⟩ := mem_preferredTier impl spec _ r hr
    have hpair : impl.Satisfying w spec = (r, none) := Prod.ext hn ((hcompat w).1 hc)
    rw [hres]
    refine ⟨?_, ⟨fun _ => ⟨hprov, w, hw, (hcompat w).1 hc⟩, fun _ => ⟨r, rfl⟩⟩, by simp, by simp⟩
    intro r2 h2
    have : r = r2 := by simpa using h2
    rw [← this]
    exact ⟨w, hw, hpair⟩

/-- C10 on the fleet of the incompatible worker 4 and the shared worker 2:
`Satisfying` returns worker 2, the result of worker 2's check. -/
theorem C10_satisfying_succeeds_iff_witness :
    ∃ w ∈ (samplePool [⟨4⟩, ⟨2⟩] 9).provider.RunningWorkers.1,
      sampleImpl.Satisfying w sampleSpec = (⟨2⟩, none) :=
  (C10_satisfying_succeeds_iff sampleImpl (samplePool [⟨4⟩, ⟨2⟩] 9) sampleSpec).1 ⟨2⟩
    (by decide)

/-! ## Facts about the workers of the tiers -/

theorem teamTier_eq_map (impl : WorkerImpl) (spec : WorkerSpec) (fleet : List Worker) :
    teamTier impl spec fleet = (teamWorkers impl spec fleet).map (narrowed impl spec) := rfl

theorem sharedTier_eq_map (impl : WorkerImpl) (spec : WorkerSpec) (fleet : List Worker) :
    sharedTier impl spec fleet = (sharedWorkers impl spec fleet).map (narrowed impl spec) := rfl

/-- The preferred tier holds the check results of the preferred workers, in
the same order. -/
theorem preferredTier_eq_map (impl : WorkerImpl) (spec : WorkerSpec) (fleet : List Worker) :
    preferredTier impl spec fleet =
      (preferredWorkers impl spec fleet).map (narrowed impl spec) := by
  unfold preferredTier preferredWorkers
  rw [teamTier_eq_map, sharedTier_eq_map]
  by_cases h : teamWorkers impl spec fleet = [] <;> simp [h]

theorem mem_preferredWorkers (impl : WorkerImpl) (spec : WorkerSpec) (fleet : List Worker)
    (w : Worker) (hw : w ∈ preferredWorkers impl spec fleet) :
    w ∈ fleet ∧ compatible impl spec w = true := by
  unfold preferredWorkers at hw
  by_cases h : teamWorkers impl spec fleet = []
  · simp only [h, ne_eq, not_true_eq_false, if_false, sharedWorkers, List.mem_filter,
      Bool.and_eq_true] at hw
    exact ⟨hw.1, hw.2.1⟩
  · simp only [ne_eq, h, not_false_eq_true, if_true] at hw
    simp only [teamWorkers, List.mem_filter, Bool.and_eq_true] at hw
    exact ⟨hw.1, hw.2.1⟩

theorem teamWorkers_ne_nil_iff (impl : WorkerImpl) (spec : WorkerSpec) (fleet : List Worker) :
    teamWorkers impl spec fleet ≠ [] ↔
      ∃ w ∈ fleet, compatible impl spec w = true ∧ impl.IsOwnedByTeam w = true := by
  rw [← teamTier_ne_nil_iff, teamTier_eq_map]
  simp

/-- A draw of the random source for the bound `n` is a number below `n`, and
`n` is positive. -/
theorem Rand.Intn_returned (q : Rand) (n r : Nat) (h : q.Intn n = Outcome.returned r) :
    0 < n ∧ r = q.next % n ∧ r < n := by
  unfold Rand.Intn at h
  by_cases hn : n = 0
  · simp [hn] at h
  · simp only [hn, if_false, Outcome.returned.injEq] at h
    have hpos : 0 < n := Nat.pos_of_ne_zero hn
    exact ⟨hpos, h.symm, by rw [← h]; exact Nat.mod_lt _ hpos⟩

/-- Every number below the bound is the draw of some state of the source. -/
theorem Rand.Intn_of_lt (n r : Nat) (h : r < n) : (Rand.mk r).Intn n = Outcome.returned r := by
  unfold Rand.Intn
  have hn : n ≠ 0 := by omega
  simp [hn, Nat.mod_eq_of_lt h]

/-- With a successful Provider call and a non-empty preferred tier,
`Satisfying` returns the check result of the preferred worker at the position
drawn. -/
theorem Satisfying_of_draw (impl : WorkerImpl) (p : pool) (spec : WorkerSpec)
    (hprov : p.provider.RunningWorkers.2 = none)
    (hne : preferredWorkers impl spec p.provider.RunningWorkers.1 ≠ []) (r : Nat)
    (hr : p.rand.Intn (preferredWorkers impl spec p.provider.RunningWorkers.1).length =
      Outcome.returned r) :
    ∃ w, (preferredWorkers impl spec p.provider.RunningWorkers.1).get? r = some w ∧
      (p.Satisfying impl spec).result =
        Outcome.returned (some (narrowed impl spec w), none) := by
  have hne2 : preferredTier impl spec p.provider.RunningWorkers.1 ≠ [] := by
    rw [preferredTier_eq_map]; simpa using hne
  have hall := allSatisfying_of_tier impl p spec hprov hne2
  obtain ⟨c, hget, hsat⟩ := Satisfying_of_candidates impl p spec
    (preferredTier impl spec p.provider.RunningWorkers.1) (by rw [hall]) hne2
  obtain ⟨_, hmod, _⟩ := Rand.Intn_returned _ _ _ hr
  rw [preferredTier_eq_map, List.length_map, ← hmod, List.get?_eq_getElem?,
    List.getElem?_map, ← List.get?_eq_getElem?] at hget
  cases hw : (preferredWorkers impl spec p.provider.RunningWorkers.1).get? r with
  | none => rw [hw] at hget; simp at hget
  | some w =>
    rw [hw] at hget
    simp only [Option.map_some', Option.some.injEq] at hget
    exact ⟨w, rfl, by rw [hsat, hget]⟩

/-! ## C11: the worker Satisfying picks -/

/-- C11, as stated, fails: in the fleet of the team-owned compatible workers 5
and 1 the preferred tier is `[5, 1]` and the draw for bound 2 is 0, yet
`Satisfying` returns worker 6, the worker the check of worker 5 returned, and
not worker 5. -/
theorem C11_counterexample :
    (samplePool [⟨5⟩, ⟨1⟩] 0).provider.RunningWorkers = ([⟨5⟩, ⟨1⟩], none) ∧
    preferredWorkers sampleImpl sampleSpec [⟨5⟩, ⟨1⟩] = [⟨5⟩, ⟨1⟩] ∧
    (samplePool [⟨5⟩, ⟨1⟩] 0).rand.Intn 2 = Outcome.returned 0 ∧
    ((samplePool [⟨5⟩, ⟨1⟩] 0).Satisfying sampleImpl sampleSpec).result =
      Outcome.returned (some ⟨6⟩, none) ∧
    ((samplePool [⟨5⟩, ⟨1⟩] 0).Satisfying sampleImpl sampleSpec).result ≠
      Outcome.returned ([(⟨5⟩ : Worker), ⟨1⟩].get? 0, none) := by
  decide

/-- C11, amended: let `L` be the fleet workers of the preferred tier (the
team-owned compatible workers in Provider order if there is one, otherwise the
shared compatible ones).  When the Provider succeeds and `L` is not empty,
`Satisfying` returns, for the draw `r` of the random source, the worker that
the compatibility check of `L[r]` returned, which is `L[r]` itself when that
check returns its receiver.  Every number below `len L` is the draw of some
state of the source, so the check result of every member of `L` is returned
for some draw; and without team-owned compatible worker `L` holds shared
compatible fleet workers only. -/
theorem C11_satisfying_returns_check_of_drawn_worker (impl : WorkerImpl) (p : pool)
    (spec : WorkerSpec) (hprov : p.provider.RunningWorkers.2 = none)
    (hne : preferredWorkers impl spec p.provider.RunningWorkers.1 ≠ []) :
    (∀ r, p.rand.Intn (preferredWorkers impl spec p.provider.RunningWorkers.1).length =
        Outcome.returned r →
      ∃ w, (preferredWorkers impl spec p.provider.RunningWorkers.1).get? r = some w ∧
        (p.Satisfying impl spec).result =
          Outcome.returned (some (impl.Satisfying w spec).1, none) ∧
        (impl.Satisfying w spec = (w, none) →
          (p.Satisfying impl spec).result = Outcome.returned (some w, none))) ∧
    (∀ r, r < (preferredWorkers impl spec p.provider.RunningWorkers.1).length →
      (Rand.mk r).Intn (preferredWorkers impl spec p.provider.RunningWorkers.1).length =
        Outcome.returned r) ∧
    (∀ w ∈ preferredWorkers impl spec p.provider.RunningWorkers.1,
      ∃ r, r < (preferredWorkers impl spec p.provider.RunningWorkers.1).length ∧
        ((pool.mk p.provider ⟨r⟩ p.strategy).Satisfying impl spec).result =
          Outcome.returned (some (impl.Satisfying w spec).1, none)) ∧
    ((¬ ∃ w ∈ p.provider.RunningWorkers.1,
        (impl.Satisfying w spec).2 = none ∧ impl.IsOwnedByTeam w = true) →
      ∀ w ∈ preferredWorkers impl spec p.provider.RunningWorkers.1,
        w ∈ p.provider.RunningWorkers.1 ∧ (impl.Satisfying w spec).2 = none ∧
          impl.IsOwnedByTeam w = false) := by
  refine ⟨?_, ?_, ?_, ?_⟩
  · intro r hr
    obtain ⟨w, hget, hres⟩ := Satisfying_of_draw impl p spec hprov hne r hr
    refine ⟨w, hget, hres, fun hself => ?_⟩
    rw [hres, narrowed, hself]
  · intro r hr
    exact Rand.Intn_of_lt _ _ hr
  · intro w hw
    obtain ⟨i, hi, hget⟩ := List.getElem_of_mem hw
    refine ⟨i, hi, ?_⟩
    obtain ⟨w2, hget2, hres⟩ := Satisfying_of_draw impl (pool.mk p.provider ⟨i⟩ p.strategy)
      spec hprov hne i (Rand.Intn_of_lt _ _ hi)
    have hsame : w2 = w := by
      have h3 : (preferredWorkers impl spec p.provider.RunningWorkers.1).get? i = some w := by
        rw [List.get?_eq_getElem?, List.getElem?_eq_getElem hi, hget]
      have h4 : (preferredWorkers impl spec p.provider.RunningWorkers.1).get? i = some w2 :=
        hget2
      rw [h3] at h4
      exact (Option.some.inj h4).symm
    rw [hres, hsame]
    rfl
  · intro hnoteam w hw
    have hteam : teamWorkers impl spec p.provider.RunningWorkers.1 = [] := by
      by_contra hcon
      obtain ⟨v, hv, hc, ho⟩ := (teamWorkers_ne_nil_iff impl spec _).1 hcon
      exact hnoteam ⟨v, hv, by simpa [compatible] using hc, ho⟩
    simp only [preferredWorkers, hteam, ne_eq, not_true_eq_false, if_false, sharedWorkers,
      List.mem_filter, Bool.and_eq_true, Bool.not_eq_true'] at hw
    exact ⟨hw.1, by simpa [compatible] using hw.2.1, hw.2.2⟩

/-- C11, amended, on the fleet of the shared compatible workers 2 and 6 and
the incompatible worker 4: the draw 1 makes `Satisfying` return worker 6. -/
theorem C11_satisfying_returns_check_of_drawn_worker_witness :
    ((samplePool [⟨2⟩, ⟨4⟩, ⟨6⟩] 1).provider.RunningWorkers.2 = none ∧
      preferredWorkers sampleImpl sampleSpec
        (samplePool [⟨2⟩, ⟨4⟩, ⟨6⟩] 1).provider.RunningWorkers.1 ≠ []) ∧
    ∃ w, (preferredWorkers sampleImpl sampleSpec
        (samplePool [⟨2⟩, ⟨4⟩, ⟨6⟩] 1).provider.RunningWorkers.1).get? 1 = some w ∧
      ((samplePool [⟨2⟩, ⟨4⟩, ⟨6⟩] 1).Satisfying sampleImpl sampleSpec).result =
        Outcome.returned (some (sampleImpl.Satisfying w sampleSpec).1, none) ∧
      (sampleImpl.Satisfying w sampleSpec = (w, none) →
        ((samplePool [⟨2⟩, ⟨4⟩, ⟨6⟩] 1).Satisfying sampleImpl sampleSpec).result =
          Outcome.returned (some w, none)) :=
  ⟨⟨rfl, by decide⟩,
    (C11_satisfying_returns_check_of_drawn_worker sampleImpl (samplePool [⟨2⟩, ⟨4⟩, ⟨6⟩] 1)
      sampleSpec rfl (by decide)).1 1 (by decide)⟩

/-! ## C12: a single team-owned compatible worker -/

/-- With a preferred tier of one worker, `Satisfying` returns that worker
whatever the random source yields. -/
theorem Satisfying_of_singleton_tier (impl : WorkerImpl) (p : pool) (spec : WorkerSpec)
    (c : Worker) (hprov : p.provider.RunningWorkers.2 = none)
    (htier : preferredTier impl spec p.provider.RunningWorkers.1 = [c]) :
    (p.Satisfying impl spec).result = Outcome.returned (some c, none) := by
  have hne : preferredTier impl spec p.provider.RunningWorkers.1 ≠ [] := by
    rw [htier]; simp
  have hall := allSatisfying_of_tier impl p spec hprov hne
  obtain ⟨w, hget, hsat⟩ := Satisfying_of_candidates impl p spec [c]
    (by rw [hall, htier]) (by simp)
  simp only [List.length_singleton, Nat.mod_one, List.get?_cons_zero,
    Option.some.injEq] at hget
  rw [hsat, hget]

/-- C12, as stated, fails: worker 5 is team-owned and compatible, worker 2 is
shared and compatible, and in either order of the two `Satisfying` returns
worker 6, the worker the check of worker 5 returned, and not worker 5. -/
theorem C12_counterexample :
    sampleImpl.IsOwnedByTeam ⟨5⟩ = true ∧ (sampleImpl.Satisfying ⟨5⟩ sampleSpec).2 = none ∧
    sampleImpl.IsOwnedByTeam ⟨2⟩ = false ∧ (sampleImpl.Satisfying ⟨2⟩ sampleSpec).2 = none ∧
    ((samplePool [⟨5⟩, ⟨2⟩] 0).Satisfying sampleImpl sampleSpec).result =
      Outcome.returned (some ⟨6⟩, none) ∧
    ((samplePool [⟨2⟩, ⟨5⟩] 1).Satisfying sampleImpl sampleSpec).result =
      Outcome.returned (some ⟨6⟩, none) ∧
    (⟨6⟩ : Worker) ≠ ⟨5⟩ := by
  decide

/-- When `W1` is the only team-owned compatible worker of the fleet,
`Satisfying` returns the worker the check of `W1` returned. -/
theorem Satisfying_of_only_team_worker (impl : WorkerImpl) (p : pool) (spec : WorkerSpec)
    (W1 : Worker) (hprov : p.provider.RunningWorkers.2 = none)
    (hmem : W1 ∈ p.provider.RunningWorkers.1)
    (h1 : (impl.Satisfying W1 spec).2 = none) (ho1 : impl.IsOwnedByTeam W1 = true)
    (honly : ∀ w ∈ p.provider.RunningWorkers.1, (impl.Satisfying w spec).2 = none →
      impl.IsOwnedByTeam w = true → w = W1) :
    (p.Satisfying impl spec).result =
      Outcome.returned (some (impl.Satisfying W1 spec).1, none) := by
  have hteam : ∃ w ∈ p.provider.RunningWorkers.1,
      compatible impl spec w = true ∧ impl.IsOwnedByTeam w = true :=
    ⟨W1, hmem, by simp [compatible, h1], ho1⟩
  obtain ⟨hpref, hne⟩ := preferredTier_eq_teamTier impl spec _ hteam
  have hall := allSatisfying_of_tier impl p spec hprov (by rw [hpref]; exact hne)
  obtain ⟨r, hget, hsat⟩ := Satisfying_of_candidates impl p spec
    (teamTier impl spec p.provider.RunningWorkers.1) (by rw [hall, hpref]) hne
  obtain ⟨w, hw, hc, ho, hn⟩ := (mem_teamTier impl spec _ r).1 (List.get?_mem hget)
  have hw1 : w = W1 := honly w hw (by simpa [compatible] using hc) ho
  rw [hsat, ← hn, hw1]
  rfl

/-- C12, amended: `Satisfying` does not depend on the random source whenever
exactly one compatible fleet worker is team-owned.  For every fleet in which
`W1` is the only team-owned compatible worker, whatever other workers it holds,
and so for the fleet made of `W1`, team-owned and compatible, and `W2`, shared
and compatible, in either order, `Satisfying` returns the worker that the
compatibility check of `W1` returned, for every state of the random source;
that worker is `W1` itself when the check returns its receiver. -/
theorem C12_single_team_worker_is_deterministic (impl : WorkerImpl) (p : pool)
    (spec : WorkerSpec) (W1 : Worker) :
    (p.provider.RunningWorkers.2 = none → W1 ∈ p.provider.RunningWorkers.1 →
      (impl.Satisfying W1 spec).2 = none → impl.IsOwnedByTeam W1 = true →
      (∀ w ∈ p.provider.RunningWorkers.1, (impl.Satisfying w spec).2 = none →
        impl.IsOwnedByTeam w = true → w = W1) →
      (∀ q : Rand, ((pool.mk p.provider q p.strategy).Satisfying impl spec).result =
        Outcome.returned (some (impl.Satisfying W1 spec).1, none)) ∧
      (impl.Satisfying W1 spec = (W1, none) →
        ∀ q : Rand, ((pool.mk p.provider q p.strategy).Satisfying impl spec).result =
          Outcome.returned (some W1, none))) ∧
    (∀ W2 : Worker,
      (p.provider.RunningWorkers = ([W1, W2], none) ∨
        p.provider.RunningWorkers = ([W2, W1], none)) →
      (impl.Satisfying W1 spec).2 = none → impl.IsOwnedByTeam W1 = true →
      (impl.Satisfying W2 spec).2 = none → impl.IsOwnedByTeam W2 = false →
      (∀ q : Rand, ((pool.mk p.provider q p.strategy).Satisfying impl spec).result =
        Outcome.returned (some (impl.Satisfying W1 spec).1, none)) ∧
      (impl.Satisfying W1 spec = (W1, none) →
        ∀ q : Rand, ((pool.mk p.provider q p.strategy).Satisfying impl spec).result =
          Outcome.returned (some W1, none))) := by
  have hgen : p.provider.RunningWorkers.2 = none → W1 ∈ p.provider.RunningWorkers.1 →
      (impl.Satisfying W1 spec).2 = none → impl.IsOwnedByTeam W1 = true →
      (∀ w ∈ p.provider.RunningWorkers.1, (impl.Satisfying w spec).2 = none →
        impl.IsOwnedByTeam w = true → w = W1) →
      (∀ q : Rand, ((pool.mk p.provider q p.strategy).Satisfying impl spec).result =
        Outcome.returned (some (impl.Satisfying W1 spec).1, none)) ∧
      (impl.Satisfying W1 spec = (W1, none) →
        ∀ q : Rand, ((pool.mk p.provider q p.strategy).Satisfying impl spec).result =
          Outcome.returned (some W1, none)) := by
    intro hprov hmem h1 ho1 honly
    have hall : ∀ q : Rand, ((pool.mk p.provider q p.strategy).Satisfying impl spec).result =
        Outcome.returned (some (impl.Satisfying W1 spec).1, none) := fun q =>
      Satisfying_of_only_team_worker impl (pool.mk p.provider q p.strategy) spec W1 hprov
        hmem h1 ho1 honly
    refine ⟨hall, fun hself q => ?_⟩
    rw [hall q, hself]
  refine ⟨hgen, ?_⟩
  intro W2 hfleet h1 ho1 _ ho2
  have hprov : p.provider.RunningWorkers.2 = none := by
    rcases hfleet with h | h <;> rw [h]
  have hmem : W1 ∈ p.provider.RunningWorkers.1 := by
    rcases hfleet with h | h <;> rw [h] <;> simp
  have honly : ∀ w ∈ p.provider.RunningWorkers.1, (impl.Satisfying w spec).2 = none →
      impl.IsOwnedByTeam w = true → w = W1 := by
    intro w hw _ how
    have hcases : w = W1 ∨ w = W2 := by
      rcases hfleet with h | h <;> rw [h] at hw <;> simp at hw <;> tauto
    rcases hcases with h | h
    · exact h
    · rw [h, ho2] at how
      exact absurd how (by simp)
  exact hgen hprov hmem h1 ho1 honly

/-- C12, amended, on two fleets.  In the fleet of the shared worker 2 and the
team-owned worker 1, whose check returns worker 1, `Satisfying` returns worker
1 with the random source about to yield 12345.  In the fleet of the
incompatible worker 4, the shared workers 2 and 6 and the team-owned worker 3,
it returns worker 3 with the source about to yield 7. -/
theorem C12_single_team_worker_is_deterministic_witness :
    ((samplePool [⟨2⟩, ⟨1⟩] 0).provider.RunningWorkers = ([⟨2⟩, ⟨1⟩], none) ∧
      sampleImpl.Satisfying ⟨1⟩ sampleSpec = (⟨1⟩, none) ∧
      sampleImpl.IsOwnedByTeam ⟨1⟩ = true ∧
      (sampleImpl.Satisfying ⟨2⟩ sampleSpec).2 = none ∧
      sampleImpl.IsOwnedByTeam ⟨2⟩ = false) ∧
    ((pool.mk (samplePool [⟨2⟩, ⟨1⟩] 0).provider ⟨12345⟩
        (samplePool [⟨2⟩, ⟨1⟩] 0).strategy).Satisfying sampleImpl sampleSpec).result =
      Outcome.returned (some ⟨1⟩, none) ∧
    ((pool.mk (samplePool [⟨4⟩, ⟨2⟩, ⟨3⟩, ⟨6⟩] 0).provider ⟨7⟩
        (samplePool [⟨4⟩, ⟨2⟩, ⟨3⟩, ⟨6⟩] 0).strategy).Satisfying sampleImpl
          sampleSpec).result =
      Outcome.returned (some ⟨3⟩, none) :=
  ⟨by decide,
    ((C12_single_team_worker_is_deterministic sampleImpl (samplePool [⟨2⟩, ⟨1⟩] 0) sampleSpec
      ⟨1⟩).2 ⟨2⟩ (Or.inr rfl) (by decide) (by decide) (by decide) (by decide)).2 (by decide)
      ⟨12345⟩,
    ((C12_single_team_worker_is_deterministic sampleImpl
      (samplePool [⟨4⟩, ⟨2⟩, ⟨3⟩, ⟨6⟩] 0) sampleSpec ⟨3⟩).1 rfl (by decide) (by decide)
      (by decide) (by decide)).2 (by decide) ⟨7⟩⟩

/-! ## C13: CreateVolume -/

/-- The trace of `Satisfying`: the trace of `allSatisfying`, then the draw if
`allSatisfying` returned no error. -/
theorem Satisfying_calls (impl : WorkerImpl) (p : pool) (spec : WorkerSpec) :
    (p.Satisfying impl spec).calls =
      (p.allSatisfying impl spec).calls ++
        (if (p.allSatisfying impl spec).result.2 = none then
          [Call.Intn (p.allSatisfying impl spec).result.1.length] else []) := by
  unfold pool.Satisfying
  cases hres : (p.allSatisfying impl spec).result.2 with
  | some e => simp
  | none =>
    simp only [if_true]
    split
    · rfl
    · split <;> rfl

/-- `Satisfying` calls no worker method but the compatibility checks. -/
theorem callsOf_Satisfying (impl : WorkerImpl) (p : pool) (spec : WorkerSpec) (m : Method)
    (h0 : m ≠ Method.RunningWorkers) (h1 : m ≠ Method.WorkerSatisfying)
    (h2 : m ≠ Method.WorkerIsOwnedByTeam) (h3 : m ≠ Method.Intn) :
    callsOf m (p.Satisfying impl spec).calls = [] := by
  rw [Satisfying_calls, callsOf_append, callsOf_allSatisfying impl p spec m h1 h2]
  by_cases hres : (p.allSatisfying impl spec).result.2 = none
  · simp [hres, h0, callsOf, Call.method, Ne.symm h3]
  · simp [hres, h0, callsOf]

/-- C13: `CreateVolume(spec, teamID, volumeType)` selects a worker with
`Satisfying` against the `WorkerSpec` in which only `TeamID` is set, to
`teamID`.  When the selection fails its error is returned and `CreateVolume` is
called on no worker; when it yields worker `w`, the result is what
`w.CreateVolume(spec, teamID, volumeType)` returns and that is the only
`CreateVolume` call.  The selection always ends in one of these two ways. -/
theorem C13_createVolume_on_selected_worker (impl : WorkerImpl) (p : pool)
    (spec : VolumeSpec) (teamID : Int) (volumeType : VolumeType) :
    WorkerSpec.ofTeam teamID = ⟨"", "", [], teamID⟩ ∧
    (∀ e, (p.Satisfying impl (WorkerSpec.ofTeam teamID)).result =
        Outcome.returned (none, some e) →
      p.CreateVolume impl spec teamID volumeType =
        ⟨Outcome.returned (none, some e),
          (p.Satisfying impl (WorkerSpec.ofTeam teamID)).calls⟩ ∧
      callsOf Method.WorkerCreateVolume
        (p.CreateVolume impl spec teamID volumeType).calls = []) ∧
    (∀ w, (p.Satisfying impl (WorkerSpec.ofTeam teamID)).result =
        Outcome.returned (some w, none) →
      p.CreateVolume impl spec teamID volumeType =
        ⟨Outcome.returned (impl.CreateVolume w spec teamID volumeType),
          (p.Satisfying impl (WorkerSpec.ofTeam teamID)).calls ++
            [Call.WorkerCreateVolume w spec teamID volumeType]⟩ ∧
      callsOf Method.WorkerCreateVolume
          (p.CreateVolume impl spec teamID volumeType).calls =
        [Call.WorkerCreateVolume w spec teamID volumeType]) ∧
    ((∃ e, (p.Satisfying impl (WorkerSpec.ofTeam teamID)).result =
        Outcome.returned (none, some e)) ∨
      ∃ w, (p.Satisfying impl (WorkerSpec.ofTeam teamID)).result =
        Outcome.returned (some w, none)) := by
  have hnone := callsOf_Satisfying impl p (WorkerSpec.ofTeam teamID)
    Method.WorkerCreateVolume (by decide) (by decide) (by decide) (by decide)
  refine ⟨rfl, ?_, ?_, ?_⟩
  · intro e he
    have hcv : p.CreateVolume impl spec teamID volumeType =
        ⟨Outcome.returned (none, some e),
          (p.Satisfying impl (WorkerSpec.ofTeam teamID)).calls⟩ := by
      unfold pool.CreateVolume
      rw [he]
    exact ⟨hcv, by rw [hcv]; exact hnone⟩
  · intro w hw
    have hcv : p.CreateVolume impl spec teamID volumeType =
        ⟨Outcome.returned (impl.CreateVolume w spec teamID volumeType),
          (p.Satisfying impl (WorkerSpec.ofTeam teamID)).calls ++
            [Call.WorkerCreateVolume w spec teamID volumeType]⟩ := by
      unfold pool.CreateVolume
      rw [hw]
    refine ⟨hcv, ?_⟩
    rw [hcv, callsOf_append, hnone]
    simp [callsOf, Call.method]
  · rcases Satisfying_cases impl p (WorkerSpec.ofTeam teamID) with ⟨e, _, hres⟩ | ⟨_, r, _, hres⟩
    · exact Or.inl ⟨e, hres⟩
    · exact Or.inr ⟨r, hres⟩

/-- C13 on the fleet of the shared worker 2: the volume is created on worker 2
and on no other worker. -/
theorem C13_createVolume_on_selected_worker_witness :
    ((samplePool [⟨2⟩] 4).Satisfying sampleImpl (WorkerSpec.ofTeam 5)).result =
        Outcome.returned (some ⟨2⟩, none) ∧
    ((samplePool [⟨2⟩] 4).CreateVolume sampleImpl ⟨0, [], false, 0⟩ 5 ⟨0⟩).result =
        Outcome.returned (sampleImpl.CreateVolume ⟨2⟩ ⟨0, [], false, 0⟩ 5 ⟨0⟩) ∧
    callsOf Method.WorkerCreateVolume
        ((samplePool [⟨2⟩] 4).CreateVolume sampleImpl ⟨0, [], false, 0⟩ 5 ⟨0⟩).calls =
      [Call.WorkerCreateVolume ⟨2⟩ ⟨0, [], false, 0⟩ 5 ⟨0⟩] :=
  ⟨by decide,
    by rw [((C13_createVolume_on_selected_worker sampleImpl (samplePool [⟨2⟩] 4)
      ⟨0, [], false, 0⟩ 5 ⟨0⟩).2.2.1 ⟨2⟩ (by decide)).1],
    ((C13_createVolume_on_selected_worker sampleImpl (samplePool [⟨2⟩] 4)
      ⟨0, [], false, 0⟩ 5 ⟨0⟩).2.2.1 ⟨2⟩ (by decide)).2⟩

/-! ## C14: FindContainerByHandle -/

/-- C14: `FindContainerByHandle` returns `(nil, false, err)` with the
Provider's error when the lookup of the owning worker fails, `(nil, false,
nil)` when the Provider reports no owner, and otherwise exactly what the owning
worker's `FindContainerByHandle(teamID, handle)` returns.  Its only collaborator
calls are that lookup and, with an owner, that worker call: neither the fleet
snapshot nor the placement strategy is consulted. -/
theorem C14_findContainerByHandle (impl : WorkerImpl) (p : pool) (teamID : Int)
    (handle : String) :
    (∀ e, (p.provider.FindWorkerForContainer teamID handle).2.2 = some e →
      p.FindContainerByHandle impl teamID handle =
        ⟨(none, false, some e), [Call.FindWorkerForContainer teamID handle]⟩) ∧
    ((p.provider.FindWorkerForContainer teamID handle).2 = (false, none) →
      p.FindContainerByHandle impl teamID handle =
        ⟨(none, false, none), [Call.FindWorkerForContainer teamID handle]⟩) ∧
    ((p.provider.FindWorkerForContainer teamID handle).2 = (true, none) →
      p.FindContainerByHandle impl teamID handle =
        ⟨impl.FindContainerByHandle (p.provider.FindWorkerForContainer teamID handle).1
            teamID handle,
          [Call.FindWorkerForContainer teamID handle,
            Call.WorkerFindContainerByHandle
              (p.provider.FindWorkerForContainer teamID handle).1 teamID handle]⟩) ∧
    (∀ c ∈ (p.FindContainerByHandle impl teamID handle).calls,
      c.method = Method.FindWorkerForContainer ∨
        c.method = Method.WorkerFindContainerByHandle) ∧
    callsOf Method.RunningWorkers (p.FindContainerByHandle impl teamID handle).calls = [] ∧
    callsOf Method.Choose (p.FindContainerByHandle impl teamID handle).calls = [] := by
  have h1 : ∀ e, (p.provider.FindWorkerForContainer teamID handle).2.2 = some e →
      p.FindContainerByHandle impl teamID handle =
        ⟨(none, false, some e), [Call.FindWorkerForContainer teamID handle]⟩ := by
    intro e he
    unfold pool.FindContainerByHandle
    simp [he]
  have h2 : (p.provider.FindWorkerForContainer teamID handle).2 = (false, none) →
      p.FindContainerByHandle impl teamID handle =
        ⟨(none, false, none), [Call.FindWorkerForContainer teamID handle]⟩ := by
    intro h
    unfold pool.FindContainerByHandle
    simp [h]
  have h3 : (p.provider.FindWorkerForContainer teamID handle).2 = (true, none) →
      p.FindContainerByHandle impl teamID handle =
        ⟨impl.FindContainerByHandle (p.provider.FindWorkerForContainer teamID handle).1
            teamID handle,
          [Call.FindWorkerForContainer teamID handle,
            Call.WorkerFindContainerByHandle
              (p.provider.FindWorkerForContainer teamID handle).1 teamID handle]⟩ := by
    intro h
    unfold pool.FindContainerByHandle
    simp [h]
  have hcases : (∃ e, (p.provider.FindWorkerForContainer teamID handle).2.2 = some e) ∨
      (p.provider.FindWorkerForContainer teamID handle).2 = (false, none) ∨
      (p.provider.FindWorkerForContainer teamID handle).2 = (true, none) := by
    cases he : (p.provider.FindWorkerForContainer teamID handle).2.2 with
    | some e => exact Or.inl ⟨e, rfl⟩
    | none =>
      cases hf : (p.provider.FindWorkerForContainer teamID handle).2.1 with
      | false => exact Or.inr (Or.inl (Prod.ext hf he))
      | true => exact Or.inr (Or.inr (Prod.ext hf he))
  refine ⟨h1, h2, h3, ?_, ?_, ?_⟩
  · intro c hc
    rcases hcases with ⟨e, he⟩ | h | h
    · rw [h1 e he] at hc
      simp only [List.mem_singleton] at hc
      left; rw [hc]; rfl
    · rw [h2 h] at hc
      simp only [List.mem_singleton] at hc
      left; rw [hc]; rfl
    · rw [h3 h] at hc
      simp only [List.mem_cons, List.mem_singleton, List.not_mem_nil, or_false] at hc
      rcases hc with hc | hc
      · left; rw [hc]; rfl
      · right; rw [hc]; rfl
  · rcases hcases with ⟨e, he⟩ | h | h
    · rw [h1 e he]; simp [callsOf, Call.method]
    · rw [h2 h]; simp [callsOf, Call.method]
    · rw [h3 h]; simp [callsOf, Call.method]
  · rcases hcases with ⟨e, he⟩ | h | h
    · rw [h1 e he]; simp [callsOf, Call.method]
    · rw [h2 h]; simp [callsOf, Call.method]
    · rw [h3 h]; simp [callsOf, Call.method]

/-- C14 on scripted pools: a failing lookup, a lookup without owner, and a
lookup that reports worker 3. -/
theorem C14_findContainerByHandle_witness :
    (scriptedPool ([⟨1⟩], none) (⟨0⟩, false, some (GoError.collaborator "db")) none
        0).FindContainerByHandle sampleImpl 5 "c" =
      ⟨(none, false, some (GoError.collaborator "db")),
        [Call.FindWorkerForContainer 5 "c"]⟩ ∧
    (scriptedPool ([⟨1⟩], none) (⟨0⟩, false, none) none 0).FindContainerByHandle
        sampleImpl 5 "c" =
      ⟨(none, false, none), [Call.FindWorkerForContainer 5 "c"]⟩ ∧
    (scriptedPool ([⟨1⟩], none) (⟨3⟩, true, none) none 0).FindContainerByHandle
        sampleImpl 5 "c" =
      ⟨(some ⟨3⟩, true, none),
        [Call.FindWorkerForContainer 5 "c", Call.WorkerFindContainerByHandle ⟨3⟩ 5 "c"]⟩ :=
  ⟨(C14_findContainerByHandle sampleImpl
      (scriptedPool ([⟨1⟩], none) (⟨0⟩, false, some (GoError.collaborator "db")) none 0)
      5 "c").1 _ rfl,
    (C14_findContainerByHandle sampleImpl
      (scriptedPool ([⟨1⟩], none) (⟨0⟩, false, none) none 0) 5 "c").2.1 rfl,
    (C14_findContainerByHandle sampleImpl
      (scriptedPool ([⟨1⟩], none) (⟨3⟩, true, none) none 0) 5 "c").2.2.1 rfl⟩

/-! ## C18: no panic in Satisfying -/

/-- A failing `allSatisfying` returns the empty list. -/
theorem allSatisfying_error_list (impl : WorkerImpl) (p : pool) (spec : WorkerSpec)
    (h : (p.allSatisfying impl spec).result.2 ≠ none) :
    (p.allSatisfying impl spec).result.1 = [] := by
  rw [allSatisfying_eq] at h ⊢
  cases he : p.provider.RunningWorkers.2 with
  | some e => simp
  | none =>
    by_cases hf : p.provider.RunningWorkers.1 = []
    · simp [hf]
    · by_cases ht : preferredTier impl spec p.provider.RunningWorkers.1 = []
      · simp [hf, ht]
      · simp [he, hf, ht] at h

/-- C18: `allSatisfying` returns a `nil` error exactly when the list it
returns is not empty, and with an error the list is empty.  So every call
`Intn(n)` that `Satisfying` makes has `n > 0`, `n` being the length of the
candidate list, the number drawn is an index of that list, and `Satisfying`
does not panic, whatever the fleet, the spec and the state of the random
source. -/
theorem C18_satisfying_never_panics (impl : WorkerImpl) (p : pool) (spec : WorkerSpec) :
    ((p.allSatisfying impl spec).result.2 = none ↔
      (p.allSatisfying impl spec).result.1 ≠ []) ∧
    ((p.allSatisfying impl spec).result.2 ≠ none →
      (p.allSatisfying impl spec).result.1 = []) ∧
    (∀ n, Call.Intn n ∈ (p.Satisfying impl spec).calls →
      0 < n ∧ n = (p.allSatisfying impl spec).result.1.length ∧
        ∃ i, p.rand.Intn n = Outcome.returned i ∧
          i < (p.allSatisfying impl spec).result.1.length) ∧
    (p.Satisfying impl spec).result ≠ Outcome.panicked := by
  have hiff : (p.allSatisfying impl spec).result.2 = none ↔
      (p.allSatisfying impl spec).result.1 ≠ [] := by
    constructor
    · intro h
      obtain ⟨_, hne, htier⟩ := allSatisfying_ok impl p spec h
      rw [htier]; exact hne
    · intro h
      by_contra hcon
      exact h (allSatisfying_error_list impl p spec hcon)
  refine ⟨hiff, allSatisfying_error_list impl p spec, ?_, ?_⟩
  · intro n hn
    rw [Satisfying_calls] at hn
    rcases List.mem_append.1 hn with h | h
    · exact absurd h (not_mem_allSatisfying_calls impl p spec _ (by simp [Call.method])
        (by simp [Call.method]) (by simp [Call.method]))
    · by_cases hres : (p.allSatisfying impl spec).result.2 = none
      · simp only [hres, if_true, List.mem_singleton, Call.Intn.injEq] at h
        have hne := hiff.1 hres
        have hpos : 0 < (p.allSatisfying impl spec).result.1.length :=
          List.length_pos.2 hne
        rw [h]
        refine ⟨hpos, rfl, p.rand.next % (p.allSatisfying impl spec).result.1.length, ?_,
          Nat.mod_lt _ hpos⟩
        unfold Rand.Intn
        simp [Nat.ne_of_gt hpos]
      · simp [hres] at h
  · rcases Satisfying_cases impl p spec with ⟨e, _, hres⟩ | ⟨_, r, _, hres⟩ <;>
      rw [hres] <;> simp

/-- C18 on the fleet of the workers 4, 2 and 6 with the random source about to
yield 5: the one draw is for the bound 2. -/
theorem C18_satisfying_never_panics_witness :
    Call.Intn 2 ∈ ((samplePool [⟨4⟩, ⟨2⟩, ⟨6⟩] 5).Satisfying sampleImpl sampleSpec).calls ∧
    (0 < 2 ∧ 2 = ((samplePool [⟨4⟩, ⟨2⟩, ⟨6⟩] 5).allSatisfying sampleImpl
        sampleSpec).result.1.length ∧
      ∃ i, (samplePool [⟨4⟩, ⟨2⟩, ⟨6⟩] 5).rand.Intn 2 = Outcome.returned i ∧
        i < ((samplePool [⟨4⟩, ⟨2⟩, ⟨6⟩] 5).allSatisfying sampleImpl
          sampleSpec).result.1.length) :=
  ⟨by decide,
    (C18_satisfying_never_panics sampleImpl (samplePool [⟨4⟩, ⟨2⟩, ⟨6⟩] 5)
      sampleSpec).2.2.1 2 (by decide)⟩

/-! ## C19: allSatisfying against its reference definition -/

/-- The reference definition yields the preferred tier. -/
theorem allSatisfyingReference_eq (impl : WorkerImpl) (spec : WorkerSpec)
    (fleet : List Worker) :
    allSatisfyingReference impl spec fleet = preferredTier impl spec fleet := by
  have hteam : ∀ fleet : List Worker,
      ((fleet.filterMap (keptWorker impl spec)).filter (fun k => k.1)).map (fun k => k.2) =
        teamTier impl spec fleet := by
    intro fleet
    induction fleet with
    | nil => rfl
    | cons w rest ih =>
      rw [teamTier_cons, ← ih]
      cases hs : (impl.Satisfying w spec).2 with
      | some e => simp [List.filterMap_cons, keptWorker, compatible, hs]
      | none =>
        cases ho : impl.IsOwnedByTeam w <;>
          simp [List.filterMap_cons, keptWorker, compatible, narrowed, hs, ho]
  have hshared : ∀ fleet : List Worker,
      ((fleet.filterMap (keptWorker impl spec)).filter (fun k => !k.1)).map (fun k => k.2) =
        sharedTier impl spec fleet := by
    intro fleet
    induction fleet with
    | nil => rfl
    | cons w rest ih =>
      rw [sharedTier_cons, ← ih]
      cases hs : (impl.Satisfying w spec).2 with
      | some e => simp [List.filterMap_cons, keptWorker, compatible, hs]
      | none =>
        cases ho : impl.IsOwnedByTeam w <;>
          simp [List.filterMap_cons, keptWorker, compatible, narrowed, hs, ho]
  unfold allSatisfyingReference preferredTier
  simp only [hteam, hshared]

/-- The list `allSatisfying` returns after a successful Provider call is the
preferred tier. -/
theorem allSatisfying_list (impl : WorkerImpl) (p : pool) (spec : WorkerSpec)
    (hprov : p.provider.RunningWorkers.2 = none) :
    (p.allSatisfying impl spec).result.1 =
      preferredTier impl spec p.provider.RunningWorkers.1 := by
  by_cases ht : preferredTier impl spec p.provider.RunningWorkers.1 = []
  · rw [ht]
    apply allSatisfying_error_list
    intro hcon
    exact (allSatisfying_ok impl p spec hcon).2.1 ht
  · rw [allSatisfying_of_tier impl p spec hprov ht]

/-- Two method tables whose checks succeed on the same fleet workers with the
same narrowed workers, and whose ownership flags agree on the fleet, give the
same tiers. -/
theorem tiers_congr (impl impl2 : WorkerImpl) (spec : WorkerSpec) :
    ∀ fleet : List Worker,
      (∀ w ∈ fleet,
        ((impl2.Satisfying w spec).2 = none ↔ (impl.Satisfying w spec).2 = none) ∧
        ((impl.Satisfying w spec).2 = none →
          (impl2.Satisfying w spec).1 = (impl.Satisfying w spec).1) ∧
        impl2.IsOwnedByTeam w = impl.IsOwnedByTeam w) →
      teamTier impl2 spec fleet = teamTier impl spec fleet ∧
        sharedTier impl2 spec fleet = sharedTier impl spec fleet ∧
        scanCalls impl2 spec fleet = scanCalls impl spec fleet := by
  intro fleet
  induction fleet with
  | nil => intro _; exact ⟨rfl, rfl, rfl⟩
  | cons w rest ih =>
    intro h
    obtain ⟨hiff, hnar, hown⟩ := h w (List.mem_cons_self _ _)
    obtain ⟨ih1, ih2, ih3⟩ := ih (fun v hv => h v (List.mem_cons_of_mem _ hv))
    rw [teamTier_cons, teamTier_cons, sharedTier_cons, sharedTier_cons, scanCalls_cons,
      scanCalls_cons, ih1, ih2, ih3]
    cases hs : (impl.Satisfying w spec).2 with
    | none =>
      have hs2 : (impl2.Satisfying w spec).2 = none := hiff.2 hs
      have hn := hnar hs
      simp [compatible, narrowed, hs, hs2, hn, hown]
    | some e =>
      have hs2 : (impl2.Satisfying w spec).2 ≠ none := fun hc => by
        rw [hiff.1 hc] at hs; simp at hs
      cases hs3 : (impl2.Satisfying w spec).2 with
      | none => exact absurd hs3 hs2
      | some e2 => simp [compatible, hs, hs3]

/-- C19: after a successful Provider call the list `allSatisfying` returns is
the one of the reference definition: over the fleet in Provider order, the
narrowed worker returned by each successful check is kept, labelled with the
`IsOwnedByTeam` flag of the fleet worker checked, and the team-owned sublist is
returned if it is not empty, else the shared sublist; the error is `nil`
exactly when that list is not empty.  The list is the image, under the checks,
of a sublist of the fleet, so Provider order is preserved.  The errors of the
failing checks are not reported: the result is the same for every method table
whose checks succeed on the same workers with the same answers and whose
ownership flags are the same, whatever errors its failing checks return. -/
theorem C19_allSatisfying_refines_reference (impl : WorkerImpl) (p : pool)
    (spec : WorkerSpec) (hprov : p.provider.RunningWorkers.2 = none) :
    (p.allSatisfying impl spec).result.1 =
      allSatisfyingReference impl spec p.provider.RunningWorkers.1 ∧
    ((p.allSatisfying impl spec).result.2 = none ↔
      allSatisfyingReference impl spec p.provider.RunningWorkers.1 ≠ []) ∧
    (∃ kept : List Worker, kept.Sublist p.provider.RunningWorkers.1 ∧
      (∀ w ∈ kept, (impl.Satisfying w spec).2 = none) ∧
      (p.allSatisfying impl spec).result.1 =
        kept.map (fun w => (impl.Satisfying w spec).1)) ∧
    (∀ impl2 : WorkerImpl,
      (∀ w ∈ p.provider.RunningWorkers.1,
        ((impl2.Satisfying w spec).2 = none ↔ (impl.Satisfying w spec).2 = none) ∧
        ((impl.Satisfying w spec).2 = none →
          (impl2.Satisfying w spec).1 = (impl.Satisfying w spec).1) ∧
        impl2.IsOwnedByTeam w = impl.IsOwnedByTeam w) →
      (p.allSatisfying impl2 spec).result = (p.allSatisfying impl spec).result) := by
  have hlist := allSatisfying_list impl p spec hprov
  refine ⟨by rw [hlist, allSatisfyingReference_eq], ?_, ?_, ?_⟩
  · rw [allSatisfyingReference_eq]
    constructor
    · intro h; exact (allSatisfying_ok impl p spec h).2.1
    · intro h; rw [allSatisfying_of_tier impl p spec hprov h]
  · refine ⟨preferredWorkers impl spec p.provider.RunningWorkers.1, ?_, ?_, ?_⟩
    · unfold preferredWorkers teamWorkers sharedWorkers
      split <;> exact List.filter_sublist _
    · intro w hw
      have := (mem_preferredWorkers impl spec _ w hw).2
      simpa [compatible] using this
    · rw [hlist, preferredTier_eq_map]
      rfl
  · intro impl2 h
    obtain ⟨h1, h2, _⟩ := tiers_congr impl impl2 spec _ h
    have hpref : preferredTier impl2 spec p.provider.RunningWorkers.1 =
        preferredTier impl spec p.provider.RunningWorkers.1 := by
      unfold preferredTier
      rw [h1, h2]
    rw [allSatisfying_eq impl2, allSatisfying_eq impl, hpref, hprov]
    by_cases hf : p.provider.RunningWorkers.1 = []
    · simp [hf]
    · by_cases ht : preferredTier impl spec p.provider.RunningWorkers.1 = [] <;>
        simp [hf, ht]

/-- C19 on the fleet of the incompatible worker 4, the team-owned worker 5,
whose check returns the shared worker 6, and the shared worker 2: the list
returned is `[6]`, the check result of the one team-owned compatible worker. -/
theorem C19_allSatisfying_refines_reference_witness :
    (samplePool [⟨4⟩, ⟨5⟩, ⟨2⟩] 0).provider.RunningWorkers.2 = none ∧
    allSatisfyingReference sampleImpl sampleSpec [⟨4⟩, ⟨5⟩, ⟨2⟩] = [⟨6⟩] ∧
    ((samplePool [⟨4⟩, ⟨5⟩, ⟨2⟩] 0).allSatisfying sampleImpl sampleSpec).result.1 =
      allSatisfyingReference sampleImpl sampleSpec
        (samplePool [⟨4⟩, ⟨5⟩, ⟨2⟩] 0).provider.RunningWorkers.1 :=
  ⟨rfl, by decide,
    (C19_allSatisfying_refines_reference sampleImpl (samplePool [⟨4⟩, ⟨5⟩, ⟨2⟩] 0)
      sampleSpec rfl).1⟩

/-! ## C20: the tiering does not look at the requesting team -/

/-- Two specs for which every fleet worker's check answers the same give the
same tiers. -/
theorem tiers_congr_spec (impl : WorkerImpl) (spec1 spec2 : WorkerSpec) :
    ∀ fleet : List Worker,
      (∀ w ∈ fleet, impl.Satisfying w spec1 = impl.Satisfying w spec2) →
      teamTier impl spec1 fleet = teamTier impl spec2 fleet ∧
        sharedTier impl spec1 fleet = sharedTier impl spec2 fleet := by
  intro fleet
  induction fleet with
  | nil => intro _; exact ⟨rfl, rfl⟩
  | cons w rest ih =>
    intro h
    have hw := h w (List.mem_cons_self _ _)
    obtain ⟨ih1, ih2⟩ := ih (fun v hv => h v (List.mem_cons_of_mem _ hv))
    rw [teamTier_cons, teamTier_cons, sharedTier_cons, sharedTier_cons, ih1, ih2]
    simp [compatible, narrowed, hw]

/-- The loop of `LookupVolume` asks workers of its list only. -/
theorem mem_lookupVolumeLoop_calls (impl : WorkerImpl) (handle : String) :
    ∀ (workers : List Worker) (c : Call), c ∈ (lookupVolumeLoop impl handle workers).calls →
      ∃ x ∈ workers, c = Call.WorkerLookupVolume x handle := by
  intro workers
  induction workers with
  | nil => intro c hc; simp [lookupVolumeLoop] at hc
  | cons x rest ih =>
    intro c hc
    unfold lookupVolumeLoop at hc
    by_cases hf : (impl.LookupVolume x handle).2.1 = true
    · simp only [hf, if_true, List.mem_singleton] at hc
      exact ⟨x, List.mem_cons_self _ _, hc⟩
    · simp only [hf, Bool.false_eq_true, if_false, List.mem_cons] at hc
      rcases hc with hc | hc
      · exact ⟨x, List.mem_cons_self _ _, hc⟩
      · obtain ⟨y, hy, hcy⟩ := ih c hc
        exact ⟨y, List.mem_cons_of_mem _ hy, hcy⟩

/-- C20, as stated, fails: in the fleet made of the team-owned compatible
worker 5, the list `allSatisfying` returns for the zero-value spec, whose
`TeamID` is 0, is `[6]`, and `LookupVolume` asks worker 6; worker 6, the worker
the check of worker 5 returned, is shared, so neither is restricted to
team-owned workers. -/
theorem C20_counterexample :
    (samplePool [⟨5⟩] 0).provider.RunningWorkers = ([⟨5⟩], none) ∧
    WorkerSpec.zero.TeamID = 0 ∧
    (sampleImpl.Satisfying ⟨5⟩ WorkerSpec.zero).2 = none ∧
    sampleImpl.IsOwnedByTeam ⟨5⟩ = true ∧
    ((samplePool [⟨5⟩] 0).allSatisfying sampleImpl WorkerSpec.zero).result =
      ([⟨6⟩], none) ∧
    Call.WorkerLookupVolume ⟨6⟩ "h" ∈
      ((samplePool [⟨5⟩] 0).LookupVolume sampleImpl "h").calls ∧
    sampleImpl.IsOwnedByTeam ⟨6⟩ = false := by
  decide

/-- C20, amended: the list `allSatisfying` returns does not depend on `TeamID`.
For two specs for which every fleet worker's check answers the same (as two
specs that differ only in `TeamID`, on a fleet that checks them alike) the
lists are equal, and so are the whole results when the list is not empty.
Whatever the `TeamID`, zero included, the list holds the workers returned by
the checks of the team-owned compatible fleet workers as soon as there is one;
`LookupVolume`, which uses the zero-value spec, then asks only such workers.
When the checks return workers with the ownership flag of their receiver, the
workers of that list and the workers `LookupVolume` asks are themselves
team-owned.  With a non-empty fleet and nothing compatible the error is
`ErrNoGlobalWorkers` for `TeamID == 0` and `NoCompatibleWorkersError`
otherwise. -/
theorem C20_tiering_ignores_team (impl : WorkerImpl) (p : pool) (spec1 spec2 : WorkerSpec)
    (hsame : ∀ w ∈ p.provider.RunningWorkers.1,
      impl.Satisfying w spec1 = impl.Satisfying w spec2) :
    (p.allSatisfying impl spec1).result.1 = (p.allSatisfying impl spec2).result.1 ∧
    ((p.allSatisfying impl spec1).result.1 ≠ [] →
      (p.allSatisfying impl spec1).result = (p.allSatisfying impl spec2).result) ∧
    (p.provider.RunningWorkers.2 = none →
      (∃ w ∈ p.provider.RunningWorkers.1,
        (impl.Satisfying w spec1).2 = none ∧ impl.IsOwnedByTeam w = true) →
      (p.allSatisfying impl spec1).result =
        (teamTier impl spec1 p.provider.RunningWorkers.1, none)) ∧
    (∀ handle : String, p.provider.RunningWorkers.2 = none →
      (∃ w ∈ p.provider.RunningWorkers.1,
        (impl.Satisfying w WorkerSpec.zero).2 = none ∧ impl.IsOwnedByTeam w = true) →
      ∀ c ∈ (p.LookupVolume impl handle).calls, c.method = Method.WorkerLookupVolume →
        ∃ w ∈ p.provider.RunningWorkers.1,
          (impl.Satisfying w WorkerSpec.zero).2 = none ∧ impl.IsOwnedByTeam w = true ∧
          c = Call.WorkerLookupVolume (impl.Satisfying w WorkerSpec.zero).1 handle) ∧
    (p.provider.RunningWorkers.2 = none → p.provider.RunningWorkers.1 ≠ [] →
      (p.allSatisfying impl spec1).result.1 = [] →
      (p.allSatisfying impl spec1).result.2 =
        some (if spec1.TeamID = 0 then GoError.ErrNoGlobalWorkers
              else GoError.NoCompatibleWorkersError spec1)) ∧
    (p.provider.RunningWorkers.2 = none →
      (∀ v ∈ p.provider.RunningWorkers.1, (impl.Satisfying v spec1).2 = none →
        impl.IsOwnedByTeam (impl.Satisfying v spec1).1 = impl.IsOwnedByTeam v) →
      (∃ w ∈ p.provider.RunningWorkers.1,
        (impl.Satisfying w spec1).2 = none ∧ impl.IsOwnedByTeam w = true) →
      ∀ c ∈ (p.allSatisfying impl spec1).result.1, impl.IsOwnedByTeam c = true) ∧
    (∀ handle : String, p.provider.RunningWorkers.2 = none →
      (∀ v ∈ p.provider.RunningWorkers.1, (impl.Satisfying v WorkerSpec.zero).2 = none →
        impl.IsOwnedByTeam (impl.Satisfying v WorkerSpec.zero).1 = impl.IsOwnedByTeam v) →
      (∃ w ∈ p.provider.RunningWorkers.1,
        (impl.Satisfying w WorkerSpec.zero).2 = none ∧ impl.IsOwnedByTeam w = true) →
      ∀ c ∈ (p.LookupVolume impl handle).calls, c.method = Method.WorkerLookupVolume →
        ∃ x, impl.IsOwnedByTeam x = true ∧ c = Call.WorkerLookupVolume x handle) := by
  obtain ⟨ht, hs⟩ := tiers_congr_spec impl spec1 spec2 _ hsame
  have hpref : preferredTier impl spec1 p.provider.RunningWorkers.1 =
      preferredTier impl spec2 p.provider.RunningWorkers.1 := by
    unfold preferredTier
    rw [ht, hs]
  have hteam : ∀ spec : WorkerSpec,
      (∃ w ∈ p.provider.RunningWorkers.1,
        (impl.Satisfying w spec).2 = none ∧ impl.IsOwnedByTeam w = true) →
      preferredTier impl spec p.provider.RunningWorkers.1 =
          teamTier impl spec p.provider.RunningWorkers.1 ∧
        teamTier impl spec p.provider.RunningWorkers.1 ≠ [] := by
    intro spec h
    apply preferredTier_eq_teamTier
    obtain ⟨w, hw, hc, ho⟩ := h
    exact ⟨w, hw, by simp [compatible, hc], ho⟩
  have hlists : (p.allSatisfying impl spec1).result.1 =
      (p.allSatisfying impl spec2).result.1 := by
    cases he : p.provider.RunningWorkers.2 with
    | some e =>
      rw [allSatisfying_of_provider_error impl p spec1 e he,
        allSatisfying_of_provider_error impl p spec2 e he]
    | none =>
      rw [allSatisfying_list impl p spec1 he, allSatisfying_list impl p spec2 he, hpref]
  have hasked : ∀ handle : String, p.provider.RunningWorkers.2 = none →
      (∃ w ∈ p.provider.RunningWorkers.1,
        (impl.Satisfying w WorkerSpec.zero).2 = none ∧ impl.IsOwnedByTeam w = true) →
      ∀ c ∈ (p.LookupVolume impl handle).calls, c.method = Method.WorkerLookupVolume →
        ∃ x ∈ teamTier impl WorkerSpec.zero p.provider.RunningWorkers.1,
          c = Call.WorkerLookupVolume x handle := by
    intro handle hprov h c hc hm
    obtain ⟨hp, hne⟩ := hteam WorkerSpec.zero h
    rw [LookupVolume_of_tier impl p handle hprov (by rw [hp]; exact hne)] at hc
    rcases List.mem_append.1 hc with hc | hc
    · rcases List.mem_cons.1 hc with hc | hc
      · rw [hc] at hm; simp [Call.method] at hm
      · rcases method_of_mem_scanCalls impl WorkerSpec.zero _ c hc with h' | h' <;>
          rw [h'] at hm <;> simp at hm
    · obtain ⟨x, hx, hcx⟩ := mem_lookupVolumeLoop_calls impl handle _ c hc
      rw [hp] at hx
      exact ⟨x, hx, hcx⟩
  refine ⟨hlists, ?_, ?_, ?_, ?_, ?_, ?_⟩
  · intro hne
    have herr1 : (p.allSatisfying impl spec1).result.2 = none := by
      by_contra hcon
      exact hne (allSatisfying_error_list impl p spec1 hcon)
    have herr2 : (p.allSatisfying impl spec2).result.2 = none := by
      by_contra hcon
      exact hne (by rw [hlists]; exact allSatisfying_error_list impl p spec2 hcon)
    exact Prod.ext hlists (by rw [herr1, herr2])
  · intro hprov h
    obtain ⟨hp, hne⟩ := hteam spec1 h
    rw [allSatisfying_of_tier impl p spec1 hprov (by rw [hp]; exact hne), hp]
  · intro handle hprov h c hc hm
    obtain ⟨x, hx, hcx⟩ := hasked handle hprov h c hc hm
    obtain ⟨w, hw, hcw, how, hn⟩ := (mem_teamTier impl WorkerSpec.zero _ x).1 hx
    refine ⟨w, hw, by simpa [compatible] using hcw, how, ?_⟩
    rw [hcx, ← hn]
    rfl
  · intro hprov hne hnil
    have ht0 : preferredTier impl spec1 p.provider.RunningWorkers.1 = [] := by
      rw [← allSatisfying_list impl p spec1 hprov]; exact hnil
    rw [allSatisfying_of_no_tier impl p spec1 hprov hne ht0]
  · intro hprov hkeep h c hc
    obtain ⟨hp, _⟩ := hteam spec1 h
    rw [allSatisfying_list impl p spec1 hprov, hp] at hc
    exact owned_of_mem_teamTier impl spec1 _ hkeep c hc
  · intro handle hprov hkeep h c hc hm
    obtain ⟨x, hx, hcx⟩ := hasked handle hprov h c hc hm
    exact ⟨x, owned_of_mem_teamTier impl WorkerSpec.zero _ hkeep x hx, hcx⟩

/-- C20, amended, on the fleet of the shared worker 2 and the team-owned
worker 3: the request of team 5 and the anonymous request get the same list,
worker 3 alone, and every worker of the list is team-owned. -/
theorem C20_tiering_ignores_team_witness :
    (∀ w ∈ (samplePool [⟨2⟩, ⟨3⟩] 0).provider.RunningWorkers.1,
      sampleImpl.Satisfying w sampleSpec = sampleImpl.Satisfying w ⟨"linux", "", [], 0⟩) ∧
    ((samplePool [⟨2⟩, ⟨3⟩] 0).allSatisfying sampleImpl sampleSpec).result =
      ((samplePool [⟨2⟩, ⟨3⟩] 0).allSatisfying sampleImpl ⟨"linux", "", [], 0⟩).result ∧
    ((samplePool [⟨2⟩, ⟨3⟩] 0).allSatisfying sampleImpl ⟨"linux", "", [], 0⟩).result =
      ([⟨3⟩], none) ∧
    (∀ c ∈ ((samplePool [⟨2⟩, ⟨3⟩] 0).allSatisfying sampleImpl sampleSpec).result.1,
      sampleImpl.IsOwnedByTeam c = true) :=
  ⟨by decide,
    (C20_tiering_ignores_team sampleImpl (samplePool [⟨2⟩, ⟨3⟩] 0) sampleSpec
      ⟨"linux", "", [], 0⟩ (by decide)).2.1 (by decide),
    by decide,
    (C20_tiering_ignores_team sampleImpl (samplePool [⟨2⟩, ⟨3⟩] 0) sampleSpec
      ⟨"linux", "", [], 0⟩ (by decide)).2.2.2.2.2.1 rfl (by decide)
      ⟨⟨3⟩, by decide, by decide, by decide⟩⟩

/-! ## C15: streaming the user input to the destination -/

/-- C15: when the producer supplies the bytes `bytes` for the plan id of the
step, `StreamTo` returns, and what it returns is the result of one call
`StreamIn(".", stream)` on the destination, the stream holding exactly `bytes`:
`nil` when the destination succeeds, its error otherwise.  That call is the
only `StreamIn` call of `StreamTo`, made between `Start` and `Finish` of the
progress bar, and `Run` makes none.  `ReadUserInput` is taken to hand the
supplied stream to the callback and to return the callback's result. -/
theorem C15_streamTo_streams_user_input (source : streamSource) (state : RunState)
    (dest : ArtifactDestination) (bytes : List UInt8)
    (hsupplied : state.userInput source.step.id = some bytes) :
    (source.StreamTo state dest).result = Blocking.done (dest.StreamIn "." bytes) ∧
    (source.StreamTo state dest).calls.filter ExecCall.isStreamIn =
      [ExecCall.StreamIn "." bytes] ∧
    (source.StreamTo state dest).calls =
      [ExecCall.Stdout source.step.delegate, ExecCall.progress (source.step.name ++ ":"),
        ExecCall.ReadUserInput source.step.id, ExecCall.Start, ExecCall.NewProxyReader,
        ExecCall.StreamIn "." bytes, ExecCall.Finish] ∧
    (dest.StreamIn "." bytes = none →
      (source.StreamTo state dest).result = Blocking.done none) ∧
    (∀ e, dest.StreamIn "." bytes = some e →
      (source.StreamTo state dest).result = Blocking.done (some e)) ∧
    (∀ ctx : Context, (source.step.Run ctx state).2.2.filter ExecCall.isStreamIn = []) := by
  have hres : (source.StreamTo state dest).result = Blocking.done (dest.StreamIn "." bytes) := by
    simp [streamSource.StreamTo, RunState.ReadUserInput, hsupplied, NewProxyReader]
  have hcalls : (source.StreamTo state dest).calls =
      [ExecCall.Stdout source.step.delegate, ExecCall.progress (source.step.name ++ ":"),
        ExecCall.ReadUserInput source.step.id, ExecCall.Start, ExecCall.NewProxyReader,
        ExecCall.StreamIn "." bytes, ExecCall.Finish] := by
    simp [streamSource.StreamTo, RunState.ReadUserInput, hsupplied, NewProxyReader]
  refine ⟨hres, ?_, hcalls, ?_, ?_, ?_⟩
  · rw [hcalls]; simp [ExecCall.isStreamIn]
  · intro h; rw [hres, h]
  · intro e h; rw [hres, h]
  · intro ctx; simp [UserArtifactStep.Run, ExecCall.isStreamIn]

/-- C15 on the scenario of the test: the bytes of `hello` are supplied for
`some-plan-id`, and the destination gets them once under the path `.`. -/
theorem C15_streamTo_streams_user_input_witness :
    sampleRunState.userInput (streamSource.mk sampleStep ⟨1⟩).step.id =
      some [104, 101, 108, 108, 111] ∧
    ((streamSource.mk sampleStep ⟨1⟩).StreamTo sampleRunState sampleDestination).result =
      Blocking.done none ∧
    ((streamSource.mk sampleStep ⟨1⟩).StreamTo sampleRunState
        sampleDestination).calls.filter ExecCall.isStreamIn =
      [ExecCall.StreamIn "." [104, 101, 108, 108, 111]] ∧
    ((streamSource.mk sampleStep ⟨1⟩).StreamTo sampleRunState failingDestination).result =
      Blocking.done (some (GoError.collaborator "disk full")) :=
  ⟨by decide,
    (C15_streamTo_streams_user_input (streamSource.mk sampleStep ⟨1⟩) sampleRunState
      sampleDestination [104, 101, 108, 108, 111] (by decide)).2.2.2.1 rfl,
    (C15_streamTo_streams_user_input (streamSource.mk sampleStep ⟨1⟩) sampleRunState
      sampleDestination [104, 101, 108, 108, 111] (by decide)).2.1,
    (C15_streamTo_streams_user_input (streamSource.mk sampleStep ⟨1⟩) sampleRunState
      failingDestination [104, 101, 108, 108, 111] (by decide)).2.2.2.2.1 _ rfl⟩

/-! ## C16: registering the source -/

/-- C16: for every step, hence every plan id and artifact name, and every run
state, `Run` returns `nil` after the one call `RegisterSource(name, source)`,
without reading user input; afterwards `SourceFor` finds under the name of the
step the stream source of that step, the sources under the other names and the
supplied streams being as before.  `Succeeded` is true for every step, and the
step made by `UserArtifact` has the id and the name it was given. -/
theorem C16_run_registers_source (step : UserArtifactStep) (ctx : Context)
    (state : RunState) :
    (step.Run ctx state).1 = none ∧
    (step.Run ctx state).2.2 = [ExecCall.RegisterSource step.name] ∧
    (step.Run ctx state).2.2.filter ExecCall.isReadUserInput = [] ∧
    (step.Run ctx state).2.1.artifacts.SourceFor step.name =
      (some (ArtifactSource.userInput ⟨step, state.ref⟩), true) ∧
    (∀ name, name ≠ step.name →
      (step.Run ctx state).2.1.artifacts.SourceFor name = state.artifacts.SourceFor name) ∧
    (step.Run ctx state).2.1.userInput = state.userInput ∧
    step.Succeeded = true ∧
    (∀ (id : String) (plan : UserArtifactPlan) (delegate : BuildStepDelegate),
      (UserArtifact id plan delegate).id = id ∧
        (UserArtifact id plan delegate).name = plan.Name ∧
        (UserArtifact id plan delegate).Succeeded = true) := by
  refine ⟨rfl, rfl, by simp [UserArtifactStep.Run, ExecCall.isReadUserInput], ?_, ?_, rfl, rfl,
    fun _ _ _ => ⟨rfl, rfl, rfl⟩⟩
  · simp [UserArtifactStep.Run, ArtifactRepository.RegisterSource,
      ArtifactRepository.SourceFor]
  · intro name hname
    simp [UserArtifactStep.Run, ArtifactRepository.RegisterSource,
      ArtifactRepository.SourceFor, hname]

/-- C16 on the step of the test, in a run state to which no stream is ever
supplied: the source is found under `some-name`. -/
theorem C16_run_registers_source_witness :
    idleRunState.userInput sampleStep.id = none ∧
    (sampleStep.Run ⟨0⟩ idleRunState).1 = none ∧
    ((sampleStep.Run ⟨0⟩ idleRunState).2.1.artifacts.SourceFor "some-name").2 = true ∧
    sampleStep.Succeeded = true :=
  ⟨by decide, (C16_run_registers_source sampleStep ⟨0⟩ idleRunState).1,
    by rw [show "some-name" = sampleStep.name from rfl,
      (C16_run_registers_source sampleStep ⟨0⟩ idleRunState).2.2.2.1],
    (C16_run_registers_source sampleStep ⟨0⟩ idleRunState).2.2.2.2.2.2.1⟩

/-! ## C17: no single file from a user artifact -/

/-- C17: for every path, the empty path and `.` included, `StreamFile` returns
no stream and an error that is not `nil`, whatever the source; it makes no
call, so it reads neither the user input nor a destination. -/
theorem C17_streamFile_always_fails (source : streamSource) (path : String) :
    (source.StreamFile path).result.1 = none ∧
    (source.StreamFile path).result.2 ≠ none ∧
    (source.StreamFile path).result.2 =
      some (GoError.collaborator "cannot stream single file from user artifact") ∧
    (source.StreamFile path).calls = [] ∧
    (source.StreamFile "").result.2 ≠ none ∧
    (source.StreamFile ".").result.2 ≠ none ∧
    (∀ (other : streamSource) (path2 : String),
      other.StreamFile path2 = source.StreamFile path) := by
  refine ⟨rfl, ?_, rfl, rfl, ?_, ?_, fun _ _ => rfl⟩ <;> simp [streamSource.StreamFile]

end Concourse
